import Mathlib

/-!
# Verification of the augment-token-manager-worker repository

A shallow embedding of the token-manager code base (Cloudflare-worker routes,
Express-server routes and services) together with proofs about the claims of
its specification.  JavaScript strings are modelled as `List Char`; the
network, the KV store and the relational database are modelled as explicit
oracle values and list-valued stores that the embedded handlers thread
through.
-/

set_option maxHeartbeats 1000000

namespace TokenManager

/-- JavaScript strings are modelled as lists of characters. -/
abbrev JStr := List Char

/-- JavaScript `s.split(c)` for a one-character separator: splits at every
occurrence, keeping empty segments, and yields one (possibly empty) segment
even for the empty string. -/
def jsSplitChar (c : Char) : JStr → List JStr
  | [] => [[]]
  | x :: xs =>
    if x = c then [] :: jsSplitChar c xs
    else
      match jsSplitChar c xs with
      | [] => [[x]]
      | h :: t => (x :: h) :: t

/-- JavaScript `s.trimStart()`: drop leading whitespace. -/
def jsTrimLeft (s : JStr) : JStr := s.dropWhile Char.isWhitespace

/-- JavaScript `s.trimEnd()`: drop trailing whitespace. -/
def jsTrimRight (s : JStr) : JStr := (s.reverse.dropWhile Char.isWhitespace).reverse

/-- JavaScript `s.trim()`. -/
def jsTrim (s : JStr) : JStr := jsTrimRight (jsTrimLeft s)

/-- JavaScript `s.indexOf(c)` for a single character, returning `none`
instead of `-1` when the character does not occur. -/
def jsIndexOf (c : Char) : JStr → Option Nat
  | [] => none
  | x :: xs => if x = c then some 0 else (jsIndexOf c xs).map (· + 1)

/-- A JavaScript `Map<string, string>` modelled as an association list in
insertion order. -/
abbrev CredMap := List (JStr × JStr)

/-- JavaScript `Map.set`: overwrite the value in place when the key is
already present, otherwise append the new binding. -/
def mapSet (m : CredMap) (k v : JStr) : CredMap :=
  if m.any (fun p => p.1 = k) then
    m.map (fun p => if p.1 = k then (k, v) else p)
  else
    m ++ [(k, v)]

/-- One entry of the Cloudflare-worker `parseUserCredentials`
(`src/manager-worker/src/utils/auth.ts`): trim the entry, find the first
colon, require a character before it and after it, and keep the pair when
both trimmed halves are non-empty. -/
def workerCredEntry (credential : JStr) : Option (JStr × JStr) :=
  let trimmed := jsTrim credential
  match jsIndexOf ':' trimmed with
  | none => none
  | some colonIndex =>
    if 0 < colonIndex ∧ colonIndex < trimmed.length - 1 then
      let username := jsTrim (trimmed.take colonIndex)
      let password := jsTrim (trimmed.drop (colonIndex + 1))
      if username ≠ [] ∧ password ≠ [] then some (username, password) else none
    else none

/-- The Cloudflare-worker `parseUserCredentials` on its string (legacy)
input format: split on commas and fold the entries into the map. -/
def parseUserCredentialsWorker (credentialsInput : JStr) : CredMap :=
  if credentialsInput = [] then []
  else
    (jsSplitChar ',' credentialsInput).foldl
      (fun m credential =>
        match workerCredEntry credential with
        | some (u, p) => mapSet m u p
        | none => m)
      []

/-- The Cloudflare-worker `parseUserCredentials` on its array input format,
which shares the per-entry logic with the string format. -/
def parseUserCredentialsWorkerArray (credentialsInput : List JStr) : CredMap :=
  credentialsInput.foldl
    (fun m credential =>
      match workerCredEntry credential with
      | some (u, p) => mapSet m u p
      | none => m)
    []

/-- One entry of the Express-server `parseUserCredentials`
(`src/unnamed/part_002`): destructure `pair.split(':')` into the first two
segments, require both to be non-empty, and trim them. -/
def serverCredEntry (pair : JStr) : Option (JStr × JStr) :=
  match jsSplitChar ':' pair with
  | username :: password :: _ =>
    if username ≠ [] ∧ password ≠ [] then some (jsTrim username, jsTrim password)
    else none
  | _ => none

/-- The Express-server `parseUserCredentials`: split on commas and fold the
entries into the map. -/
def parseUserCredentialsServer (credentials : JStr) : CredMap :=
  if credentials = [] then []
  else
    (jsSplitChar ',' credentials).foldl
      (fun m pair =>
        match serverCredEntry pair with
        | some (u, p) => mapSet m u p
        | none => m)
      []

/-- An entry of the credentials string on which the two `parseUserCredentials`
implementations are compared: either it contains no colon, or it contains
exactly one colon with non-whitespace characters on both sides of it. -/
def goodCredEntry (e : JStr) : Prop :=
  e.count ':' = 0 ∨
    (e.count ':' = 1 ∧
      jsTrim (e.takeWhile (· ≠ ':')) ≠ [] ∧
      jsTrim ((e.dropWhile (· ≠ ':')).tail) ≠ [])

instance : DecidablePred goodCredEntry := fun e => by
  unfold goodCredEntry
  infer_instance

/-! ## JavaScript truthiness helpers -/

/-- JavaScript truthiness of an optional string: `undefined` and the empty
string are falsy. -/
def jsTruthy (o : Option JStr) : Bool :=
  match o with
  | none => false
  | some s => !s.isEmpty

/-- JavaScript `a || b` for optional strings: keep `a` when truthy,
otherwise `b`. -/
def jsOrOpt (a b : Option JStr) : Option JStr :=
  if jsTruthy a then a else b

/-- JavaScript `x || ''` on an optional string. -/
def jsOrEmpty (a : Option JStr) : JStr :=
  match a with
  | some s => s
  | none => []

/-- The JS expression `x || undefined` on a nullable string field, as used
by `toTokenResponse`: both `null` and the empty string become `undefined`. -/
def jsOrUndef (o : Option JStr) : Option JStr :=
  match o with
  | some s => if s = [] then none else some s
  | none => none

/-- Substring test, modelling the Prisma `contains` filter and JS
`String.prototype.includes`. -/
def containsSub (needle : JStr) (hay : JStr) : Bool :=
  match hay with
  | [] => needle.isEmpty
  | _ :: rest => needle.isPrefixOf hay || containsSub needle rest

/-! ## Data model of the token store (src/unnamed/part_003) -/

/-- The `CreateTokenRequest` of `types/index.ts`; optional fields are
`undefined` when absent. -/
structure CreateTokenRequest where
  tenant_url : Option JStr
  access_token : JStr
  portal_url : Option JStr
  email_note : Option JStr
  auth_session : Option JStr
  deriving DecidableEq, Repr

/-- The `UpdateTokenRequest` of `types/index.ts`; a `none` field means the
field is absent (`undefined`) and is left unchanged by `updateToken`. -/
structure UpdateTokenRequest where
  tenant_url : Option JStr
  access_token : Option JStr
  portal_url : Option JStr
  email_note : Option JStr
  ban_status : Option JStr
  share_info : Option JStr
  is_shared : Option Bool
  auth_session : Option JStr
  deriving DecidableEq, Repr

/-- An `UpdateTokenRequest` with every field absent. -/
def emptyUpdate : UpdateTokenRequest :=
  ⟨none, none, none, none, none, none, none, none⟩

/-- A stored Prisma `Token` row.  Database ids are modelled as `Nat`,
timestamps as `Nat` epoch values; nullable text columns are `Option JStr`. -/
structure DbToken where
  id : Nat
  tenantUrl : Option JStr
  accessToken : JStr
  portalUrl : Option JStr
  emailNote : Option JStr
  banStatus : Option JStr
  portalInfo : Option JStr
  createdAt : Nat
  updatedAt : Nat
  createdBy : JStr
  shareInfo : Option JStr
  isShared : Bool
  authSession : Option JStr
  deriving DecidableEq, Repr

/-- The `TokenResponse` shape produced by `toTokenResponse`; `created_at`
and `updated_at` keep the numeric timestamp instead of its ISO rendering. -/
structure TokenResponse where
  id : Nat
  tenant_url : Option JStr
  access_token : JStr
  portal_url : Option JStr
  email_note : Option JStr
  ban_status : Option JStr
  portal_info : Option JStr
  created_at : Nat
  updated_at : Nat
  created_by : JStr
  share_info : Option JStr
  is_shared : Bool
  auth_session : Option JStr
  deriving DecidableEq, Repr

/-- `TokenService.toTokenResponse` (src/unnamed/part_003): nullable columns
are exposed through `x || undefined`, the access token and creator are
passed through unchanged. -/
def toTokenResponse (t : DbToken) : TokenResponse where
  id := t.id
  tenant_url := jsOrUndef t.tenantUrl
  access_token := t.accessToken
  portal_url := jsOrUndef t.portalUrl
  email_note := jsOrUndef t.emailNote
  ban_status := jsOrUndef t.banStatus
  portal_info := jsOrUndef t.portalInfo
  created_at := t.createdAt
  updated_at := t.updatedAt
  created_by := t.createdBy
  share_info := jsOrUndef t.shareInfo
  is_shared := t.isShared
  auth_session := jsOrUndef t.authSession

/-- The token table. -/
structure TokenDb where
  tokens : List DbToken
  deriving DecidableEq, Repr

/-- A fresh primary key, modelling the id generated by the database:
strictly larger than every existing id. -/
def freshTokenId (db : TokenDb) : Nat :=
  (db.tokens.map (fun t => t.id)).foldr max 0 + 1

/-- The initial `banStatus` JSON written by `createToken`
(`JSON.stringify` of the NORMAL state, with the timestamp inlined). -/
def normalBanStatus (now : Nat) : JStr :=
  ("\x7b\"status\":\"NORMAL\",\"reason\":\"Initial state\",\"updated_at\":\"" ++
    toString now ++ "\"\x7d").toList

/-- Stable insertion of a token into a list kept in descending `createdAt`
order; models the database `orderBy createdAt desc`. -/
def insertDesc (t : DbToken) : List DbToken → List DbToken
  | [] => [t]
  | x :: xs => if t.createdAt ≤ x.createdAt then x :: insertDesc t xs else t :: x :: xs

/-- Sort a token list by descending `createdAt`, modelling the database
`orderBy: \x7b createdAt: 'desc' \x7d`. -/
def sortByCreatedDesc : List DbToken → List DbToken
  | [] => []
  | x :: xs => insertDesc x (sortByCreatedDesc xs)

namespace ServerTokenService

/-- The row inserted by `TokenService.createToken`: the supplied fields, a
NORMAL ban status, an empty `portalInfo`, and a fresh primary key. -/
def newDbToken (db : TokenDb) (tokenData : CreateTokenRequest) (createdBy : JStr)
    (now : Nat) : DbToken where
  id := freshTokenId db
  tenantUrl := tokenData.tenant_url
  accessToken := tokenData.access_token
  portalUrl := tokenData.portal_url
  emailNote := tokenData.email_note
  banStatus := some (normalBanStatus now)
  portalInfo := some "\x7b\x7d".toList
  createdAt := now
  updatedAt := now
  createdBy := createdBy
  shareInfo := none
  isShared := false
  authSession := tokenData.auth_session

/-- `TokenService.createToken` (src/unnamed/part_003): insert a new row
and return its `TokenResponse`. -/
def createToken (db : TokenDb) (tokenData : CreateTokenRequest) (createdBy : JStr)
    (now : Nat) : TokenResponse × TokenDb :=
  (toTokenResponse (newDbToken db tokenData createdBy now),
    ⟨db.tokens ++ [newDbToken db tokenData createdBy now]⟩)

/-- `TokenService.getTokenById`: `findUnique` on the primary key. -/
def getTokenById (db : TokenDb) (tokenId : Nat) : Option TokenResponse :=
  (db.tokens.find? (fun t => t.id == tokenId)).map toTokenResponse

/-- Apply an `UpdateTokenRequest` to a row: only the fields present in the
request are replaced (`updates.x !== undefined`), and `updatedAt` is
refreshed by the database. -/
def applyUpdate (t : DbToken) (u : UpdateTokenRequest) (now : Nat) : DbToken where
  id := t.id
  tenantUrl := match u.tenant_url with | some v => some v | none => t.tenantUrl
  accessToken := match u.access_token with | some v => v | none => t.accessToken
  portalUrl := match u.portal_url with | some v => some v | none => t.portalUrl
  emailNote := match u.email_note with | some v => some v | none => t.emailNote
  banStatus := match u.ban_status with | some v => some v | none => t.banStatus
  portalInfo := t.portalInfo
  createdAt := t.createdAt
  updatedAt := now
  createdBy := t.createdBy
  shareInfo := match u.share_info with | some v => some v | none => t.shareInfo
  isShared := match u.is_shared with | some v => v | none => t.isShared
  authSession := match u.auth_session with | some v => some v | none => t.authSession

/-- `TokenService.updateToken`: return `null` when the row does not exist,
otherwise update it in place and return the updated response. -/
def updateToken (db : TokenDb) (tokenId : Nat) (updates : UpdateTokenRequest)
    (now : Nat) : Option TokenResponse × TokenDb :=
  match db.tokens.find? (fun t => t.id == tokenId) with
  | none => (none, db)
  | some _ =>
    let db2 : TokenDb :=
      ⟨db.tokens.map (fun t => if t.id == tokenId then applyUpdate t updates now else t)⟩
    ((db2.tokens.find? (fun t => t.id == tokenId)).map toTokenResponse, db2)

/-- `TokenService.deleteToken`: `true` when a row was deleted, `false` when
the delete threw because the row did not exist. -/
def deleteToken (db : TokenDb) (tokenId : Nat) : Bool × TokenDb :=
  match db.tokens.find? (fun t => t.id == tokenId) with
  | none => (false, db)
  | some _ => (true, ⟨db.tokens.filter (fun t => !(t.id == tokenId))⟩)

/-- The row filter of `TokenService.searchTokens`: a `createdBy` filter is
added only when the parameter is truthy, and a truthy `search` parameter
requires a substring match on `emailNote`, `tenantUrl` or `portalUrl`
(the `category` parameter is accepted but never used in the query). -/
def searchMatches (search createdBy : Option JStr) (t : DbToken) : Bool :=
  (!jsTruthy createdBy || (t.createdBy == jsOrEmpty createdBy)) &&
    (!jsTruthy search ||
      (optContains t.emailNote (jsOrEmpty search) ||
        optContains t.tenantUrl (jsOrEmpty search) ||
        optContains t.portalUrl (jsOrEmpty search)))
where
  /-- Prisma `contains` on a nullable column: `null` never matches. -/
  optContains (o : Option JStr) (needle : JStr) : Bool :=
    match o with
    | some hay => containsSub needle hay
    | none => false

/-- `TokenService.searchTokens`: filter, newest first. -/
def searchTokens (db : TokenDb) (search category createdBy : Option JStr) :
    List TokenResponse :=
  let _ := category
  (sortByCreatedDesc (db.tokens.filter (searchMatches search createdBy))).map toTokenResponse

/-- The result record of `TokenService.listTokens`. -/
structure ListTokensResult where
  tokens : List TokenResponse
  total : Nat
  page : Nat
  limit : Nat
  totalPages : Nat
  deriving DecidableEq, Repr

/-- `TokenService.listTokens`: `where` filters by creator only when the
`createdBy` argument is truthy, rows are sorted newest first and the
requested page is cut out with `skip`/`take`. -/
def listTokens (db : TokenDb) (page limit : Nat) (createdBy : Option JStr) :
    ListTokensResult :=
  let rows := db.tokens.filter
    (fun t => !jsTruthy createdBy || (t.createdBy == jsOrEmpty createdBy))
  let sorted := sortByCreatedDesc rows
  { tokens := ((sorted.drop ((page - 1) * limit)).take limit).map toTokenResponse
    total := rows.length
    page := page
    limit := limit
    totalPages := (rows.length + limit - 1) / limit }

/-- `TokenService.batchImportTokens`: create a row for every request in one
transaction and return the created responses. -/
def batchImportTokens (db : TokenDb) (tokens : List CreateTokenRequest)
    (createdBy : JStr) (now : Nat) : List TokenResponse × TokenDb :=
  match tokens with
  | [] => ([], db)
  | req :: rest =>
    let (resp, db2) := createToken db req createdBy now
    let (resps, db3) := batchImportTokens db2 rest createdBy now
    (resp :: resps, db3)

end ServerTokenService

/-! ## Worker token route handlers (src/manager-worker/src/routes/tokens.ts
and the second implementation in src/unnamed/part_009)

The Cloudflare-worker `TokenService` itself is not part of the sources; the
route handlers below are threaded through the relational `TokenService` of
src/unnamed/part_003, whose operations carry the same contract. -/

/-- An authenticated requester as attached by `getCurrentUser`. -/
structure UserRec where
  id : JStr
  role : JStr
  deriving DecidableEq, Repr

/-- The literal role string compared by `user.role !== 'admin'`. -/
def adminRole : JStr := "admin".toList

/-- The sentinel creator id written by the public import endpoint. -/
def publicImportId : JStr := "public-import".toList

/-- Outcome of a single-token route: a success envelope with an optional
token payload, or an error envelope with its HTTP status. -/
inductive RouteResult where
  | ok (status : Nat) (token : Option TokenResponse)
  | err (status : Nat)
  deriving DecidableEq, Repr

namespace WorkerTokensMain

/-- `getTokenByIdHandler` of src/manager-worker/src/routes/tokens.ts:
401 without a user, 400 without a token id, 404 for an unknown token, 403
when a non-admin requests a token created by someone else. -/
def getTokenByIdHandler (user : Option UserRec) (tokenId : Option Nat)
    (db : TokenDb) : RouteResult × TokenDb :=
  match user with
  | none => (.err 401, db)
  | some u =>
    match tokenId with
    | none => (.err 400, db)
    | some tid =>
      match ServerTokenService.getTokenById db tid with
      | none => (.err 404, db)
      | some token =>
        if u.role ≠ adminRole ∧ token.created_by ≠ u.id then (.err 403, db)
        else (.ok 200 (some token), db)

/-- `updateTokenHandler` of src/manager-worker/src/routes/tokens.ts. -/
def updateTokenHandler (user : Option UserRec) (tokenId : Option Nat)
    (body : UpdateTokenRequest) (db : TokenDb) (now : Nat) : RouteResult × TokenDb :=
  match user with
  | none => (.err 401, db)
  | some u =>
    match tokenId with
    | none => (.err 400, db)
    | some tid =>
      match ServerTokenService.getTokenById db tid with
      | none => (.err 404, db)
      | some existingToken =>
        if u.role ≠ adminRole ∧ existingToken.created_by ≠ u.id then (.err 403, db)
        else
          match ServerTokenService.updateToken db tid body now with
          | (none, db2) => (.err 404, db2)
          | (some updated, db2) => (.ok 200 (some updated), db2)

/-- `deleteTokenHandler` of src/manager-worker/src/routes/tokens.ts. -/
def deleteTokenHandler (user : Option UserRec) (tokenId : Option Nat)
    (db : TokenDb) : RouteResult × TokenDb :=
  match user with
  | none => (.err 401, db)
  | some u =>
    match tokenId with
    | none => (.err 400, db)
    | some tid =>
      match ServerTokenService.getTokenById db tid with
      | none => (.err 404, db)
      | some existingToken =>
        if u.role ≠ adminRole ∧ existingToken.created_by ≠ u.id then (.err 403, db)
        else
          match ServerTokenService.deleteToken db tid with
          | (false, db2) => (.err 404, db2)
          | (true, db2) => (.ok 200 none, db2)

end WorkerTokensMain

namespace WorkerTokensAlt

/-- `getTokenByIdHandler` of src/unnamed/part_009: like the main version
but non-admins may also access tokens whose creator is `public-import`. -/
def getTokenByIdHandler (user : Option UserRec) (tokenId : Option Nat)
    (db : TokenDb) : RouteResult × TokenDb :=
  match user with
  | none => (.err 401, db)
  | some u =>
    match tokenId with
    | none => (.err 400, db)
    | some tid =>
      match ServerTokenService.getTokenById db tid with
      | none => (.err 404, db)
      | some token =>
        if u.role ≠ adminRole ∧ token.created_by ≠ u.id ∧
            token.created_by ≠ publicImportId then (.err 403, db)
        else (.ok 200 (some token), db)

/-- `updateTokenHandler` of src/unnamed/part_009. -/
def updateTokenHandler (user : Option UserRec) (tokenId : Option Nat)
    (body : UpdateTokenRequest) (db : TokenDb) (now : Nat) : RouteResult × TokenDb :=
  match user with
  | none => (.err 401, db)
  | some u =>
    match tokenId with
    | none => (.err 400, db)
    | some tid =>
      match ServerTokenService.getTokenById db tid with
      | none => (.err 404, db)
      | some existingToken =>
        if u.role ≠ adminRole ∧ existingToken.created_by ≠ u.id ∧
            existingToken.created_by ≠ publicImportId then (.err 403, db)
        else
          match ServerTokenService.updateToken db tid body now with
          | (none, db2) => (.err 404, db2)
          | (some updated, db2) => (.ok 200 (some updated), db2)

/-- `deleteTokenHandler` of src/unnamed/part_009. -/
def deleteTokenHandler (user : Option UserRec) (tokenId : Option Nat)
    (db : TokenDb) : RouteResult × TokenDb :=
  match user with
  | none => (.err 401, db)
  | some u =>
    match tokenId with
    | none => (.err 400, db)
    | some tid =>
      match ServerTokenService.getTokenById db tid with
      | none => (.err 404, db)
      | some existingToken =>
        if u.role ≠ adminRole ∧ existingToken.created_by ≠ u.id ∧
            existingToken.created_by ≠ publicImportId then (.err 403, db)
        else
          match ServerTokenService.deleteToken db tid with
          | (false, db2) => (.err 404, db2)
          | (true, db2) => (.ok 200 none, db2)

end WorkerTokensAlt

/-- Query parameters of a `GET /api/tokens` request. -/
structure ListQuery where
  page : Nat
  limit : Nat
  search : Option JStr
  category : Option JStr
  deriving DecidableEq, Repr

/-- Outcome of the listing route: an error envelope or one page of token
responses. -/
inductive ListResult where
  | err (status : Nat)
  | page (tokens : List TokenResponse) (pg limit total : Nat)
  deriving DecidableEq, Repr

/-- `getTokensHandler` (identical in both route files): when a search or
category parameter is present, run `searchTokens` with a creator filter for
non-admins and paginate manually; otherwise call `listTokens` with no
creator filter. -/
def getTokensHandler (user : Option UserRec) (q : ListQuery) (db : TokenDb) :
    ListResult :=
  match user with
  | none => .err 401
  | some u =>
    if jsTruthy q.search || jsTruthy q.category then
      let tokens := ServerTokenService.searchTokens db q.search q.category
        (if u.role = adminRole then none else some u.id)
      let startIndex := (q.page - 1) * q.limit
      .page ((tokens.drop startIndex).take q.limit) q.page q.limit tokens.length
    else
      let r := ServerTokenService.listTokens db q.page q.limit none
      .page r.tokens r.page r.limit r.total

/-- A possibly malformed JSON array field of a request body. -/
inductive BatchField (α : Type) where
  | missing
  | notArray
  | arr (items : List α)
  deriving DecidableEq, Repr

/-- Outcome of a batch route. -/
inductive BatchResult where
  | err (status : Nat)
  | ok (status : Nat) (imported failed : Nat)
  deriving DecidableEq, Repr

/-- `batchImportTokensHandler` (identical in both route files): reject a
missing or non-array `tokens` field, an empty array, and an array longer
than 100 before touching the store; otherwise import every entry. -/
def batchImportTokensHandler (user : Option UserRec)
    (tokensField : BatchField CreateTokenRequest) (db : TokenDb) (now : Nat) :
    BatchResult × TokenDb :=
  match user with
  | none => (.err 401, db)
  | some u =>
    match tokensField with
    | .missing => (.err 400, db)
    | .notArray => (.err 400, db)
    | .arr items =>
      if items.length = 0 then (.err 400, db)
      else if items.length > 100 then (.err 400, db)
      else
        let (resps, db2) := ServerTokenService.batchImportTokens db items u.id now
        (.ok 200 resps.length 0, db2)

/-! ## The Express authentication middleware
(src/manager-server/src/middleware/auth.ts) -/

/-- A user row as joined by `include: \x7b user: true \x7d`. -/
structure ExpUser where
  id : Nat
  isActive : Bool
  deriving DecidableEq, Repr

/-- A session row of the Express server; `expiresAt` is an epoch instant. -/
structure ExpSession where
  id : Nat
  sessionId : JStr
  expiresAt : Int
  user : ExpUser
  deriving DecidableEq, Repr

/-- Outcome of the middleware: pass control to the next handler with the
user and session attached, or answer with an error status. -/
inductive AuthOutcome where
  | next (user : ExpUser) (session : ExpSession)
  | err (status : Nat)
  deriving DecidableEq, Repr

/-- The session the middleware would look up for a given header. -/
def sessionLookup (authHeader : Option JStr) (store : List ExpSession) :
    Option ExpSession :=
  match authHeader with
  | none => none
  | some h =>
    if "Bearer ".toList.isPrefixOf h then
      store.find? (fun s => s.sessionId == h.drop 7)
    else none

/-- `authMiddleware`: require a `Bearer` header, look the session up,
delete it and answer 401 when it is expired, answer 403 when the user is
inactive, otherwise attach user and session and continue. -/
def authMiddleware (authHeader : Option JStr) (now : Int)
    (store : List ExpSession) : AuthOutcome × List ExpSession :=
  match authHeader with
  | none => (.err 401, store)
  | some h =>
    if !("Bearer ".toList.isPrefixOf h) then (.err 401, store)
    else
      let sessionToken := h.drop 7
      match store.find? (fun s => s.sessionId == sessionToken) with
      | none => (.err 401, store)
      | some session =>
        if session.expiresAt < now then
          (.err 401, store.filter (fun s => !(s.id == session.id)))
        else if !session.user.isActive then (.err 403, store)
        else (.next session.user session, store)

/-! ## The session-import flow (src/manager-worker/src/routes/sessionImport.ts)

Outbound HTTP is modelled by an oracle `World` that fixes the outcome of
every fetch the flow can issue; JSON bodies are modelled by the fields the
code reads from them.  The PKCE parameters and the cookie headers only
influence the outbound requests, never the control flow, so they are not
part of the model. -/

/-- Outcome of the terms-accept page fetch: a network exception, or a
response with its `ok` flag and HTML body. -/
inductive FetchOutcome where
  | exn
  | resp (ok : Bool) (body : JStr)
  deriving DecidableEq, Repr

/-- Outcome of the authorization-code exchange: a network or JSON-parsing
exception, or a response with its `ok` flag and the `access_token` field of
its JSON body. -/
inductive ExchangeOutcome where
  | exn
  | resp (ok : Bool) (accessToken : Option JStr)
  deriving DecidableEq, Repr

/-- Outcome of one metadata API call: an exception, or a response with its
`ok` flag and the field (`email` or `portalUrl`) read from its body. -/
inductive ApiOutcome where
  | exn
  | resp (ok : Bool) (field : Option JStr)
  deriving DecidableEq, Repr

/-- The requests the flow can issue, recorded in execution order.  The
metadata attempts are tagged with their cookie-format index; the whole
app-session fallback (login page, `/api/user`, `/api/subscription`) is
recorded as one `metaAppFlow` marker. -/
inductive Req where
  | terms
  | exchange
  | metaUser (i : Nat)
  | metaSub (i : Nat)
  | metaAppFlow
  deriving DecidableEq, Repr

/-- The network oracle for one execution of `extractTokenFromSession`
together with the outcome of the post-import `refreshTokenInfo` call
(`none` when it throws, `some none` when it returns `null`). -/
structure World where
  terms : FetchOutcome
  exchange : ExchangeOutcome
  userAuth : Nat → ApiOutcome
  subAuth : Nat → ApiOutcome
  appSession : Option JStr
  userApp : ApiOutcome
  subApp : ApiOutcome
  refreshResult : Option (Option TokenResponse)

/-- Character class `["\s:]` of the fallback regexes. -/
def isSepChar (c : Char) : Bool := c = '"' || c.isWhitespace || c = ':'

/-- Character class `[a-zA-Z0-9_-]` of the fallback regexes. -/
def isWordChar (c : Char) : Bool := c.isAlphanum || c = '_' || c = '-'

/-- The apostrophe character, written by code point. -/
def apostropheChar : Char := Char.ofNat 39

/-- Character class `[^"'\s]` of the tenant-url fallback regex. -/
def isUrlChar (c : Char) : Bool := !(c = '"' || c = apostropheChar || c.isWhitespace)

/-- Strip a literal prefix, returning the rest of the string. -/
def stripPrefixL : JStr → JStr → Option JStr
  | [], r => some r
  | _ :: _, [] => none
  | p :: ps, x :: xs => if x = p then stripPrefixL ps xs else none

/-- Match the regex `label\s*"([^"]+)"` at the start of `s` and return the
capture: the literal label, optional whitespace, a quote, a non-empty run
of non-quote characters, and a closing quote. -/
def matchQuotedAt (label : JStr) (s : JStr) : Option JStr :=
  match stripPrefixL label s with
  | none => none
  | some r =>
    match r.dropWhile Char.isWhitespace with
    | [] => none
    | q :: r2 =>
      if q = '"' then
        let cap := r2.takeWhile (fun c => c ≠ '"')
        if cap ≠ [] ∧ r2.dropWhile (fun c => c ≠ '"') ≠ [] then some cap else none
      else none

/-- Match the fallback regex `label["\s:]+([a-zA-Z0-9_-]+)` at the start of
`s`; the two character classes are disjoint, so greedy matching is
deterministic. -/
def matchWordAt (label : JStr) (s : JStr) : Option JStr :=
  match stripPrefixL label s with
  | none => none
  | some r =>
    let sep := r.takeWhile isSepChar
    let r2 := r.dropWhile isSepChar
    let cap := r2.takeWhile isWordChar
    if sep ≠ [] ∧ cap ≠ [] then some cap else none

/-- After the scheme of `https?` has been consumed, match `://[^"'\s]+` and
return the full captured URL. -/
def matchUrlTail (scheme : JStr) (rest : JStr) : Option JStr :=
  match stripPrefixL [':', '/', '/'] rest with
  | none => none
  | some r5 =>
    let cap := r5.takeWhile isUrlChar
    if cap ≠ [] then some (scheme ++ [':', '/', '/'] ++ cap) else none

/-- Match the fallback regex `label["\s:]+(https?:\/\/[^"'\s]+)` at the
start of `s`. -/
def matchUrlAt (label : JStr) (s : JStr) : Option JStr :=
  match stripPrefixL label s with
  | none => none
  | some r =>
    let sep := r.takeWhile isSepChar
    let r2 := r.dropWhile isSepChar
    if sep = [] then none
    else
      match stripPrefixL ['h', 't', 't', 'p'] r2 with
      | none => none
      | some r3 =>
        match r3 with
        | [] => matchUrlTail ['h', 't', 't', 'p'] []
        | c :: r4 =>
          if c = 's' then matchUrlTail ['h', 't', 't', 'p', 's'] r4
          else matchUrlTail ['h', 't', 't', 'p'] (c :: r4)

/-- Leftmost-match scan of a JS regex: try the matcher at every start
position from left to right. -/
def scanFor (m : JStr → Option JStr) : JStr → Option JStr
  | [] => m []
  | x :: rest =>
    match m (x :: rest) with
    | some v => some v
    | none => scanFor m rest

/-- Step 2 of `extractTokenFromSession`: extract `code`, `state` and
`tenant_url` from the HTML, trying the quoted pattern first and the
permissive fallback pattern second for each parameter. -/
def extractParams (html : JStr) : Option (JStr × JStr × JStr) :=
  let codeM :=
    match scanFor (matchQuotedAt ['c', 'o', 'd', 'e', ':']) html with
    | some v => some v
    | none => scanFor (matchWordAt ['c', 'o', 'd', 'e']) html
  let stateM :=
    match scanFor (matchQuotedAt ['s', 't', 'a', 't', 'e', ':']) html with
    | some v => some v
    | none => scanFor (matchWordAt ['s', 't', 'a', 't', 'e']) html
  let tenantM :=
    match scanFor (matchQuotedAt ['t', 'e', 'n', 'a', 'n', 't', '_', 'u', 'r', 'l', ':'])
        html with
    | some v => some v
    | none => scanFor (matchUrlAt ['t', 'e', 'n', 'a', 'n', 't', '_', 'u', 'r', 'l']) html
  match codeM, stateM, tenantM with
  | some c, some st, some t => some (c, st, t)
  | _, _, _ => none

/-- The field a metadata helper (`fetchAppUser`, `fetchAppSubscription`)
yields to its caller: the JSON field when the response is ok, `null` on a
non-ok response or an exception (those helpers catch internally). -/
def apiField (o : ApiOutcome) : Option JStr :=
  match o with
  | .exn => none
  | .resp ok f => if ok then f else none

/-- The cookie-format loop of `fetchAppUserWithAuthSession` and
`fetchAppSubscriptionWithAuthSession`, starting at attempt `i` with `n`
attempts left: return the first truthy field of an ok response, abort with
`null` on an exception (caught by the surrounding handler), and also record
which attempts were issued. -/
def authLoopFrom (f : Nat → ApiOutcome) : Nat → Nat → Option JStr × List Nat
  | _, 0 => (none, [])
  | i, n + 1 =>
    match f i with
    | .exn => (none, [i])
    | .resp ok field =>
      if ok then
        match field with
        | some v =>
          if v ≠ [] then (some v, [i])
          else
            let (r, t) := authLoopFrom f (i + 1) n
            (r, i :: t)
        | none =>
          let (r, t) := authLoopFrom f (i + 1) n
          (r, i :: t)
      else
        let (r, t) := authLoopFrom f (i + 1) n
        (r, i :: t)

/-- The four cookie formats tried by the direct-auth-session helpers. -/
def authLoop (f : Nat → ApiOutcome) : Option JStr × List Nat :=
  authLoopFrom f 0 4

/-- Step 4 of `extractTokenFromSession`: method 1 tries the auth-session
helpers in parallel; when either field is still missing, method 2 exchanges
the auth session for an app session (its failure is caught) and fills the
missing fields from `fetchAppUser`/`fetchAppSubscription`. -/
def fetchMeta (w : World) : Option JStr × Option JStr × List Req :=
  let (email1, t1) := authLoop w.userAuth
  let (portal1, t2) := authLoop w.subAuth
  let trace1 := t1.map Req.metaUser ++ t2.map Req.metaSub
  if email1.isSome ∧ portal1.isSome then (email1, portal1, trace1)
  else
    match w.appSession with
    | none => (email1, portal1, trace1 ++ [Req.metaAppFlow])
    | some _ =>
      let email2 := if email1.isSome then email1 else apiField w.userApp
      let portal2 := if portal1.isSome then portal1 else apiField w.subApp
      (email2, portal2, trace1 ++ [Req.metaAppFlow])

/-- The record `extractTokenFromSession` resolves with. -/
structure TokenInfo where
  access_token : JStr
  tenant_url : JStr
  portal_url : Option JStr
  email : Option JStr
  deriving DecidableEq, Repr

/-- `extractTokenFromSession`: fetch the terms page, extract the OAuth
parameters from its HTML, exchange the code, require a truthy
`access_token`, then gather best-effort metadata.  The second component is
the trace of issued requests. -/
def extractTokenFromSession (w : World) : Option TokenInfo × List Req :=
  match w.terms with
  | .exn => (none, [.terms])
  | .resp ok body =>
    if ok then
      match extractParams body with
      | none => (none, [.terms])
      | some (_code, _state, tenantUrl) =>
        match w.exchange with
        | .exn => (none, [.terms, .exchange])
        | .resp ok2 tok =>
          if ok2 then
            match tok with
            | some accessTok =>
              if accessTok ≠ [] then
                let (email, portal, mt) := fetchMeta w
                (some ⟨accessTok, tenantUrl, portal, email⟩,
                  .terms :: .exchange :: mt)
              else (none, [.terms, .exchange])
            | none => (none, [.terms, .exchange])
          else (none, [.terms, .exchange])
    else (none, [.terms])

/-- The parsed body of a session-import request. -/
structure SessionImportBody where
  session_token : Option JStr
  email_note : Option JStr
  deriving DecidableEq, Repr

/-- The `CreateTokenRequest` the session-import handlers build from an
extracted `TokenInfo`. -/
def sessionCreateRequest (body : SessionImportBody) (info : TokenInfo) :
    CreateTokenRequest where
  tenant_url := some info.tenant_url
  access_token := info.access_token
  portal_url := some (jsOrEmpty info.portal_url)
  email_note := some (jsOrEmpty (jsOrOpt body.email_note info.email))
  auth_session := body.session_token

/-- `importTokenFromSessionHandler`: 401 without a user, 400 for a falsy
session token, 400 when extraction fails or yields falsy fields, otherwise
create the record, best-effort refresh portal info, and answer 201. -/
def importTokenFromSessionHandler (user : Option UserRec)
    (body : SessionImportBody) (w : World) (db : TokenDb) (now : Nat) :
    RouteResult × TokenDb :=
  match user with
  | none => (.err 401, db)
  | some u =>
    if !(jsTruthy body.session_token) then (.err 400, db)
    else
      match (extractTokenFromSession w).1 with
      | none => (.err 400, db)
      | some info =>
        if info.access_token = [] then (.err 400, db)
        else if info.tenant_url = [] then (.err 400, db)
        else
          let (token, db2) :=
            ServerTokenService.createToken db (sessionCreateRequest body info) u.id now
          if jsTruthy token.portal_url then
            match w.refreshResult with
            | some (some r) => (.ok 201 (some r), db2)
            | _ => (.ok 201 (some token), db2)
          else (.ok 201 (some token), db2)

/-- The loop body of `batchImportFromSessionsHandler`: one success or
failure per session, each with its own network oracle. -/
def runSessionBatch (u : UserRec) (now : Nat) :
    List (SessionImportBody × World) → TokenDb → Nat × Nat × TokenDb
  | [], db => (0, 0, db)
  | (body, w) :: rest, db =>
    if jsTruthy body.session_token then
      match (extractTokenFromSession w).1 with
      | some info =>
        if info.access_token ≠ [] ∧ info.tenant_url ≠ [] then
          let (_, db2) :=
            ServerTokenService.createToken db (sessionCreateRequest body info) u.id now
          let (i, f, db3) := runSessionBatch u now rest db2
          (i + 1, f, db3)
        else
          let (i, f, db2) := runSessionBatch u now rest db
          (i, f + 1, db2)
      | none =>
        let (i, f, db2) := runSessionBatch u now rest db
        (i, f + 1, db2)
    else
      let (i, f, db2) := runSessionBatch u now rest db
      (i, f + 1, db2)

/-- Whether one batched session imports successfully. -/
def sessionItemOk (body : SessionImportBody) (w : World) : Bool :=
  jsTruthy body.session_token &&
    match (extractTokenFromSession w).1 with
    | some info => !info.access_token.isEmpty && !info.tenant_url.isEmpty
    | none => false

/-- `batchImportFromSessionsHandler`: reject a missing or non-array
`sessions` field, an empty array, and an array longer than 50 before
touching the store; then import the sessions one by one, answering a 200
success envelope that reports both the imported and the failed count. -/
def batchImportFromSessionsHandler (user : Option UserRec)
    (sessionsField : BatchField (SessionImportBody × World)) (db : TokenDb)
    (now : Nat) : BatchResult × TokenDb :=
  match user with
  | none => (.err 401, db)
  | some u =>
    match sessionsField with
    | .missing => (.err 400, db)
    | .notArray => (.err 400, db)
    | .arr items =>
      if items.length = 0 then (.err 400, db)
      else if items.length > 50 then (.err 400, db)
      else
        let (imported, failed, db2) := runSessionBatch u now items db
        (.ok 200 imported failed, db2)

/-! ## Concrete instances used by witnesses and counterexamples -/

/-- A terms-accept HTML page carrying the three OAuth parameters in the
quoted form the primary regexes match. -/
def htmlGood : JStr :=
  "code: \"abc\" state: \"st1\" tenant_url: \"https://t.example/\"".toList

/-- A world where the terms fetch and the code exchange succeed while every
metadata strategy fails. -/
def wGood : World where
  terms := .resp true htmlGood
  exchange := .resp true (some "tok".toList)
  userAuth := fun _ => .resp false none
  subAuth := fun _ => .resp false none
  appSession := none
  userApp := .resp false none
  subApp := .resp false none
  refreshResult := none

/-- A world where the terms fetch answers a non-OK response. -/
def wTermsFail : World where
  terms := .resp false []
  exchange := .resp true (some "tok".toList)
  userAuth := fun _ => .resp false none
  subAuth := fun _ => .resp false none
  appSession := none
  userApp := .resp false none
  subApp := .resp false none
  refreshResult := none

/-- A world where the code exchange answers a non-OK response. -/
def wExchangeFail : World where
  terms := .resp true htmlGood
  exchange := .resp false none
  userAuth := fun _ => .resp false none
  subAuth := fun _ => .resp false none
  appSession := none
  userApp := .resp false none
  subApp := .resp false none
  refreshResult := none

/-- The success condition of the session-import flow: the terms fetch
succeeds, OAuth-parameter extraction on its HTML succeeds, and the code
exchange succeeds with a truthy `access_token` in its body. -/
def flowOk (w : World) : Prop :=
  (∃ b, w.terms = .resp true b ∧ (extractParams b).isSome) ∧
    (∃ a, w.exchange = .resp true (some a) ∧ a ≠ [])

/-- A token created by `alice`. -/
def tokAlice : DbToken :=
  ⟨1, some "u1".toList, "at1".toList, none, some "a@x".toList, none, none, 3, 3,
    "alice".toList, none, false, none⟩

/-- A store holding only `alice`'s token. -/
def dbAlice : TokenDb := ⟨[tokAlice]⟩

/-- A token created through the public import endpoint. -/
def tokPub : DbToken :=
  ⟨1, some "u1".toList, "at1".toList, none, some "p@x".toList, none, none, 3, 3,
    publicImportId, none, false, none⟩

/-- A store holding only the public-import token. -/
def dbPub : TokenDb := ⟨[tokPub]⟩

/-- A token created by `bob`. -/
def tokBob : DbToken :=
  ⟨1, some "u1".toList, "at1".toList, none, some "e@x".toList, none, none, 3, 3,
    "bob".toList, none, false, none⟩

/-- A store holding only `bob`'s token. -/
def dbBob : TokenDb := ⟨[tokBob]⟩

/-- The non-admin requester `bob`. -/
def userBob : UserRec := ⟨"bob".toList, "user".toList⟩

/-- An update request changing only the email note. -/
def updEmail : UpdateTokenRequest :=
  { emptyUpdate with email_note := some "changed".toList }

/-! ## Theorems about the credential parsers -/

example :
    parseUserCredentialsWorker "admin:pw1,user:pw2".toList =
      [("admin".toList, "pw1".toList), ("user".toList, "pw2".toList)] := by decide

example :
    parseUserCredentialsServer "admin:pw1,user:pw2".toList =
      [("admin".toList, "pw1".toList), ("user".toList, "pw2".toList)] := by decide

example :
    parseUserCredentialsWorker "a:b:c".toList = [("a".toList, "b:c".toList)] := by decide

example :
    parseUserCredentialsServer "a:b:c".toList = [("a".toList, "b".toList)] := by decide

/-! ## Auxiliary lemmas about the JavaScript string primitives -/

theorem jsSplitChar_ne_nil (c : Char) (l : JStr) : jsSplitChar c l ≠ [] := by
  induction l with
  | nil => simp [jsSplitChar]
  | cons x xs ih =>
    by_cases hx : x = c
    · simp [jsSplitChar, hx]
    · simp only [jsSplitChar, if_neg hx]
      cases h : jsSplitChar c xs with
      | nil => exact absurd h ih
      | cons h t => simp

theorem jsSplitChar_of_not_mem {c : Char} {l : JStr} (h : c ∉ l) :
    jsSplitChar c l = [l] := by
  induction l with
  | nil => rfl
  | cons x xs ih =>
    have hx : x ≠ c := fun hxc => h (by simp [hxc])
    have hxs : c ∉ xs := fun hm => h (by simp [hm])
    simp [jsSplitChar, hx, ih hxs]

theorem jsSplitChar_append {c : Char} {a b : JStr} (h : c ∉ a) :
    jsSplitChar c (a ++ c :: b) = a :: jsSplitChar c b := by
  induction a with
  | nil => simp [jsSplitChar]
  | cons x xs ih =>
    have hx : x ≠ c := fun hxc => h (by simp [hxc])
    have hxs : c ∉ xs := fun hm => h (by simp [hm])
    have heq := ih hxs
    simp only [List.cons_append, jsSplitChar, if_neg hx]
    rw [show xs.append (c :: b) = xs ++ c :: b from rfl, heq]

theorem jsIndexOf_of_not_mem {c : Char} {l : JStr} (h : c ∉ l) :
    jsIndexOf c l = none := by
  induction l with
  | nil => rfl
  | cons x xs ih =>
    have hx : x ≠ c := fun hxc => h (by simp [hxc])
    have hxs : c ∉ xs := fun hm => h (by simp [hm])
    simp [jsIndexOf, hx, ih hxs]

theorem jsIndexOf_append {c : Char} {a b : JStr} (h : c ∉ a) :
    jsIndexOf c (a ++ c :: b) = some a.length := by
  induction a with
  | nil => simp [jsIndexOf]
  | cons x xs ih =>
    have hx : x ≠ c := fun hxc => h (by simp [hxc])
    have hxs : c ∉ xs := fun hm => h (by simp [hm])
    simp [jsIndexOf, hx, ih hxs]

theorem dropWhile_append_ne {p : Char → Bool} {l r : JStr} (h : l.dropWhile p ≠ []) :
    (l ++ r).dropWhile p = l.dropWhile p ++ r := by
  induction l with
  | nil => simp [List.dropWhile] at h
  | cons x xs ih =>
    by_cases hx : p x
    · simp only [List.dropWhile_cons_of_pos hx] at h
      simp only [List.cons_append, List.dropWhile_cons_of_pos hx, ih h]
    · simp [List.cons_append, List.dropWhile_cons_of_neg hx]

theorem dropWhile_append_all {p : Char → Bool} {w r : JStr} (h : ∀ x ∈ w, p x) :
    (w ++ r).dropWhile p = r.dropWhile p := by
  induction w with
  | nil => rfl
  | cons x xs ih =>
    have hx : p x := h x (by simp)
    simp only [List.cons_append, List.dropWhile_cons_of_pos hx]
    exact ih fun y hy => h y (by simp [hy])

theorem dropWhile_idem (p : Char → Bool) (l : JStr) :
    (l.dropWhile p).dropWhile p = l.dropWhile p := by
  induction l with
  | nil => rfl
  | cons x xs ih =>
    by_cases hx : p x
    · simp [List.dropWhile_cons_of_pos hx, ih]
    · simp [List.dropWhile_cons_of_neg hx]

theorem dropWhile_ne_nil_head {p : Char → Bool} {l : JStr} (h : l.dropWhile p ≠ []) :
    ∃ y ys, l.dropWhile p = y :: ys ∧ ¬ p y := by
  induction l with
  | nil => simp [List.dropWhile] at h
  | cons x xs ih =>
    by_cases hx : p x
    · simp only [List.dropWhile_cons_of_pos hx] at h ⊢
      exact ih h
    · exact ⟨x, xs, List.dropWhile_cons_of_neg hx, hx⟩

theorem mem_decomp {c : Char} {l : JStr} (h : c ∈ l) :
    ∃ a b, l = a ++ c :: b ∧ c ∉ a := by
  induction l with
  | nil => simp at h
  | cons x xs ih =>
    by_cases hx : x = c
    · exact ⟨[], xs, by simp [hx], by simp⟩
    · have hm : c ∈ xs := by
        rcases List.mem_cons.mp h with h1 | h1
        · exact absurd h1.symm hx
        · exact h1
      obtain ⟨a, b, rfl, ha⟩ := ih hm
      exact ⟨x :: a, b, rfl, by
        intro hc
        rcases List.mem_cons.mp hc with h1 | h1
        · exact hx h1.symm
        · exact ha h1⟩

theorem jsTrimLeft_eq_nil_iff {l : JStr} :
    jsTrimLeft l = [] ↔ ∀ x ∈ l, x.isWhitespace := by
  simp [jsTrimLeft, List.dropWhile_eq_nil_iff]

theorem jsTrimRight_eq_nil_iff {l : JStr} :
    jsTrimRight l = [] ↔ ∀ x ∈ l, x.isWhitespace := by
  simp [jsTrimRight, List.dropWhile_eq_nil_iff]

theorem jsTrimRight_append {l m : JStr} (h : jsTrimRight m ≠ []) :
    jsTrimRight (l ++ m) = l ++ jsTrimRight m := by
  have hm : m.reverse.dropWhile Char.isWhitespace ≠ [] := by
    intro hnil
    exact h (by simp [jsTrimRight, hnil])
  simp only [jsTrimRight, List.reverse_append]
  rw [dropWhile_append_ne hm]
  simp

theorem jsTrimLeft_idem (l : JStr) : jsTrimLeft (jsTrimLeft l) = jsTrimLeft l :=
  dropWhile_idem _ l

theorem jsTrimRight_idem (l : JStr) : jsTrimRight (jsTrimRight l) = jsTrimRight l := by
  simp [jsTrimRight, List.reverse_reverse, dropWhile_idem]

theorem jsTrimRight_ne_nil_of_trim {l : JStr} (h : jsTrim l ≠ []) : jsTrimRight l ≠ [] := by
  intro hr
  apply h
  have hall : ∀ x ∈ l, x.isWhitespace := jsTrimRight_eq_nil_iff.mp hr
  have : jsTrimLeft l = [] := jsTrimLeft_eq_nil_iff.mpr hall
  simp [jsTrim, this, jsTrimRight]

theorem jsTrimLeft_ne_nil_of_trim {l : JStr} (h : jsTrim l ≠ []) : jsTrimLeft l ≠ [] := by
  intro hr
  apply h
  simp [jsTrim, hr, jsTrimRight]

theorem trim_commute (l : JStr) :
    jsTrimLeft (jsTrimRight l) = jsTrimRight (jsTrimLeft l) := by
  by_cases h : jsTrimLeft l = []
  · have hall : ∀ x ∈ l, x.isWhitespace := jsTrimLeft_eq_nil_iff.mp h
    have hr : jsTrimRight l = [] := jsTrimRight_eq_nil_iff.mpr hall
    rw [hr, h]
    rfl
  · -- decompose l into its whitespace prefix and the left-trimmed rest
    obtain ⟨y, ys, hy0, hyw⟩ := dropWhile_ne_nil_head (p := Char.isWhitespace) h
    have hy : jsTrimLeft l = y :: ys := hy0
    have hdec : l.takeWhile Char.isWhitespace ++ jsTrimLeft l = l := by
      simp [jsTrimLeft]
    have hwall : ∀ x ∈ l.takeWhile Char.isWhitespace, x.isWhitespace := by
      intro x hx
      exact List.mem_takeWhile_imp hx
    -- the right trim of the left-trimmed part keeps its non-whitespace head
    have hhead : ∃ zs, jsTrimRight (jsTrimLeft l) = y :: zs := by
      rw [hy]
      by_cases hys : jsTrimRight ys = []
      · have hallys : ∀ x ∈ ys, x.isWhitespace := jsTrimRight_eq_nil_iff.mp hys
        refine ⟨[], ?_⟩
        simp only [jsTrimRight, List.reverse_cons]
        rw [dropWhile_append_all (by simpa using hallys)]
        simp [List.dropWhile, hyw]
      · have hstep : jsTrimRight ([y] ++ ys) = [y] ++ jsTrimRight ys := jsTrimRight_append hys
        exact ⟨jsTrimRight ys, by simpa using hstep⟩
    obtain ⟨zs, hzs⟩ := hhead
    have htr : jsTrimRight l = l.takeWhile Char.isWhitespace ++ jsTrimRight (jsTrimLeft l) := by
      conv_lhs => rw [← hdec]
      exact jsTrimRight_append (by simp [hzs])
    rw [htr, hzs]
    show jsTrimLeft (l.takeWhile Char.isWhitespace ++ y :: zs) = y :: zs
    unfold jsTrimLeft
    rw [dropWhile_append_all hwall, List.dropWhile_cons_of_neg hyw]

theorem jsTrim_trimRight (l : JStr) : jsTrim (jsTrimRight l) = jsTrim l := by
  simp only [jsTrim]
  rw [trim_commute, jsTrimRight_idem]

theorem jsTrim_trimLeft (l : JStr) : jsTrim (jsTrimLeft l) = jsTrim l := by
  simp only [jsTrim, jsTrimLeft_idem]

theorem mem_of_mem_jsTrimLeft {x : Char} {l : JStr} (h : x ∈ jsTrimLeft l) : x ∈ l :=
  (List.dropWhile_sublist _).subset h

theorem mem_of_mem_jsTrimRight {x : Char} {l : JStr} (h : x ∈ jsTrimRight l) : x ∈ l := by
  have := (List.dropWhile_sublist (l := l.reverse) Char.isWhitespace).subset
    (by simpa [jsTrimRight] using h)
  simpa using this

theorem mem_of_mem_jsTrim {x : Char} {l : JStr} (h : x ∈ jsTrim l) : x ∈ l :=
  mem_of_mem_jsTrimLeft (mem_of_mem_jsTrimRight h)

theorem takeWhile_decomp {c : Char} {a b : JStr} (h : c ∉ a) :
    (a ++ c :: b).takeWhile (· ≠ c) = a ∧ (a ++ c :: b).dropWhile (· ≠ c) = c :: b := by
  induction a with
  | nil => simp [List.takeWhile, List.dropWhile]
  | cons x xs ih =>
    have hx : x ≠ c := fun hxc => h (by simp [hxc])
    have hxs : c ∉ xs := fun hm => h (by simp [hm])
    obtain ⟨h1, h2⟩ := ih hxs
    constructor
    · simpa [List.takeWhile_cons, hx] using h1
    · simpa [List.dropWhile_cons, hx] using h2

theorem credEntry_eq {e : JStr} (h : goodCredEntry e) :
    workerCredEntry e = serverCredEntry e := by
  rcases h with h0 | ⟨h1, ha0, hb0⟩
  · -- no colon: both sides skip the entry
    have hnm : ':' ∉ e := List.count_eq_zero.mp h0
    have hnt : ':' ∉ jsTrim e := fun hm => hnm (mem_of_mem_jsTrim hm)
    have hw : workerCredEntry e = none := by
      simp [workerCredEntry, jsIndexOf_of_not_mem hnt]
    have hs : serverCredEntry e = none := by
      simp [serverCredEntry, jsSplitChar_of_not_mem hnm]
    rw [hw, hs]
  · -- exactly one colon with non-blank sides
    have hmem : ':' ∈ e := List.count_pos_iff.mp (by omega)
    obtain ⟨a, b, rfl, hna⟩ := mem_decomp hmem
    obtain ⟨htk, hdr⟩ := takeWhile_decomp (b := b) hna
    have hcnt : (a ++ ':' :: b).count ':' = a.count ':' + (b.count ':' + 1) := by
      simp [List.count_append, List.count_cons]
    have hnb : ':' ∉ b := by
      have : b.count ':' = 0 := by omega
      exact List.count_eq_zero.mp this
    rw [htk] at ha0
    rw [hdr] at hb0
    simp only [List.tail_cons] at hb0
    -- the server implementation
    have hsplit : jsSplitChar ':' (a ++ ':' :: b) = [a, b] := by
      rw [jsSplitChar_append hna, jsSplitChar_of_not_mem hnb]
    have hane : a ≠ [] := by
      intro hnil
      rw [hnil] at ha0
      exact ha0 rfl
    have hbne : b ≠ [] := by
      intro hnil
      rw [hnil] at hb0
      exact hb0 rfl
    have hs : serverCredEntry (a ++ ':' :: b) = some (jsTrim a, jsTrim b) := by
      simp [serverCredEntry, hsplit, hane, hbne]
    -- the worker implementation
    have hAne : jsTrimLeft a ≠ [] := jsTrimLeft_ne_nil_of_trim ha0
    have hBne : jsTrimRight b ≠ [] := jsTrimRight_ne_nil_of_trim hb0
    have hstep1 : jsTrimLeft (a ++ ':' :: b) = jsTrimLeft a ++ ':' :: b :=
      dropWhile_append_ne hAne
    have hsub : jsTrimRight (':' :: b) = ':' :: jsTrimRight b := by
      have := jsTrimRight_append (l := [':']) hBne
      simpa using this
    have hstep2 : jsTrimRight (jsTrimLeft a ++ ':' :: b) =
        jsTrimLeft a ++ ':' :: jsTrimRight b := by
      rw [jsTrimRight_append (by rw [hsub]; simp), hsub]
    have htrim : jsTrim (a ++ ':' :: b) = jsTrimLeft a ++ ':' :: jsTrimRight b := by
      rw [jsTrim, hstep1, hstep2]
    have hnA : ':' ∉ jsTrimLeft a := fun hm => hna (mem_of_mem_jsTrimLeft hm)
    have hidx : jsIndexOf ':' (jsTrim (a ++ ':' :: b)) = some (jsTrimLeft a).length := by
      rw [htrim]
      exact jsIndexOf_append hnA
    have hApos : 0 < (jsTrimLeft a).length := List.length_pos.mpr hAne
    have hBpos : 0 < (jsTrimRight b).length := List.length_pos.mpr hBne
    have hlen : (jsTrimLeft a ++ ':' :: jsTrimRight b).length =
        (jsTrimLeft a).length + ((jsTrimRight b).length + 1) := by
      simp [List.length_append]
    have hcond : (jsTrimLeft a).length < (jsTrim (a ++ ':' :: b)).length - 1 := by
      rw [htrim, hlen]
      omega
    have htake : (jsTrim (a ++ ':' :: b)).take (jsTrimLeft a).length = jsTrimLeft a := by
      rw [htrim]
      exact List.take_left _ _
    have hdrop : (jsTrim (a ++ ':' :: b)).drop ((jsTrimLeft a).length + 1) =
        jsTrimRight b := by
      rw [htrim, show jsTrimLeft a ++ ':' :: jsTrimRight b =
        (jsTrimLeft a ++ [':']) ++ jsTrimRight b by simp]
      have hl : (jsTrimLeft a ++ [':']).length = (jsTrimLeft a).length + 1 := by simp
      rw [← hl]
      exact List.drop_left _ _
    have hu : jsTrim (jsTrimLeft a) = jsTrim a := jsTrim_trimLeft a
    have hp : jsTrim (jsTrimRight b) = jsTrim b := jsTrim_trimRight b
    have hw : workerCredEntry (a ++ ':' :: b) = some (jsTrim a, jsTrim b) := by
      simp only [workerCredEntry, hidx]
      rw [if_pos ⟨hApos, hcond⟩, htake, hdrop, hu, hp, if_pos ⟨ha0, hb0⟩]
    rw [hw, hs]

/-- The entry-level functions agree on every entry of a list of good entries,
hence the folds agree. -/
theorem credFold_eq (l : List JStr) (h : ∀ e ∈ l, goodCredEntry e) (init : CredMap) :
    l.foldl
        (fun m credential =>
          match workerCredEntry credential with
          | some (u, p) => mapSet m u p
          | none => m)
        init =
      l.foldl
        (fun m pair =>
          match serverCredEntry pair with
          | some (u, p) => mapSet m u p
          | none => m)
        init := by
  induction l generalizing init with
  | nil => rfl
  | cons e es ih =>
    simp only [List.foldl_cons]
    rw [credEntry_eq (h e (by simp))]
    exact ih (fun x hx => h x (by simp [hx])) _

/-- C8, counterexample: on the credentials string `a:b:c` the
Cloudflare-worker parser keeps everything after the first colon as the
password (`b:c`) while the Express-server parser keeps only the segment
between the first two colons (`b`), so the two implementations are not
equivalent on their shared string domain. -/
theorem c8_counterexample :
    parseUserCredentialsWorker "a:b:c".toList ≠
      parseUserCredentialsServer "a:b:c".toList := by decide

/-- C8 (amended): the Cloudflare-worker and Express-server implementations
of `parseUserCredentials` agree on every credentials string whose
comma-separated entries each contain either no colon at all, or exactly one
colon with non-whitespace characters on both sides of it. -/
theorem c8_parseUserCredentials_equiv (s : JStr)
    (h : ∀ e ∈ jsSplitChar ',' s, goodCredEntry e) :
    parseUserCredentialsWorker s = parseUserCredentialsServer s := by
  unfold parseUserCredentialsWorker parseUserCredentialsServer
  by_cases hs : s = []
  · simp [hs]
  · simp only [if_neg hs]
    exact credFold_eq _ h []

/-- Witness for C8: the equivalence theorem applied to a concrete
well-formed credentials string. -/
theorem c8_parseUserCredentials_equiv_witness :
    (∀ e ∈ jsSplitChar ',' "admin:pw1,user:pw2".toList, goodCredEntry e) ∧
      parseUserCredentialsWorker "admin:pw1,user:pw2".toList =
        parseUserCredentialsServer "admin:pw1,user:pw2".toList :=
  ⟨by decide, c8_parseUserCredentials_equiv _ (by decide)⟩

example :
    extractParams htmlGood =
      some ("abc".toList, "st1".toList, "https://t.example/".toList) := by decide

example :
    (extractTokenFromSession wGood).1 =
      some ⟨"tok".toList, "https://t.example/".toList, none, none⟩ := by decide

example : (extractTokenFromSession wTermsFail).1 = none := by decide

example : (extractTokenFromSession wTermsFail).2 = [.terms] := by decide

example : (extractTokenFromSession wExchangeFail).2 = [.terms, .exchange] := by decide

/-! ## C10: the Express authentication middleware -/

/-- `authMiddleware` characterized through `sessionLookup`. -/
theorem authMiddleware_eq (hdr : Option JStr) (now : Int) (store : List ExpSession) :
    authMiddleware hdr now store =
      match sessionLookup hdr store with
      | none => (.err 401, store)
      | some session =>
        if session.expiresAt < now then
          (.err 401, store.filter (fun s => !(s.id == session.id)))
        else if !session.user.isActive then (.err 403, store)
        else (.next session.user session, store) := by
  cases hdr with
  | none => rfl
  | some h =>
    by_cases hp : "Bearer ".toList <+: h
    · have hb : "Bearer ".toList.isPrefixOf h = true :=
        List.isPrefixOf_iff_prefix.mpr hp
      have hb2 : ['B', 'e', 'a', 'r', 'e', 'r', ' '].isPrefixOf h = true := hb
      have hp2 : ['B', 'e', 'a', 'r', 'e', 'r', ' '] <+: h := hp
      simp [authMiddleware, sessionLookup, hb2, hp2]
    · have hb : "Bearer ".toList.isPrefixOf h = false := by
        rw [Bool.eq_false_iff]
        intro hc
        exact hp (List.isPrefixOf_iff_prefix.mp hc)
      have hb2 : ['B', 'e', 'a', 'r', 'e', 'r', ' '].isPrefixOf h = false := hb
      have hp2 : ¬ ['B', 'e', 'a', 'r', 'e', 'r', ' '] <+: h := hp
      simp [authMiddleware, sessionLookup, hb2, hp2]

/-- C10: whenever `authMiddleware` passes control on, the attached session
has not expired and its user is active; a request whose session is found
but expired receives 401 and that session is removed from the store; a
request whose session is found and not expired but whose user is inactive
receives 403. -/
theorem c10_authMiddleware_invariant (hdr : Option JStr) (now : Int)
    (store : List ExpSession) :
    (∀ u s store2, authMiddleware hdr now store = (.next u s, store2) →
        now ≤ s.expiresAt ∧ s.user.isActive = true) ∧
    (∀ s, sessionLookup hdr store = some s → s.expiresAt < now →
        authMiddleware hdr now store =
            (.err 401, store.filter (fun t => !(t.id == s.id))) ∧
          ∀ t ∈ (authMiddleware hdr now store).2, t.id ≠ s.id) ∧
    (∀ s, sessionLookup hdr store = some s → ¬ s.expiresAt < now →
        s.user.isActive = false →
        authMiddleware hdr now store = (.err 403, store)) := by
  have hchar := authMiddleware_eq hdr now store
  refine ⟨?_, ?_, ?_⟩
  · intro u s store2 hrun
    rw [hchar] at hrun
    cases hlk : sessionLookup hdr store with
    | none => rw [hlk] at hrun; simp at hrun
    | some session =>
      rw [hlk] at hrun
      by_cases hexp : session.expiresAt < now
      · simp [hexp] at hrun
      · by_cases hact : session.user.isActive = true
        · simp only [if_neg hexp, hact, Bool.not_true, Bool.false_eq_true, if_false,
            Prod.mk.injEq, AuthOutcome.next.injEq] at hrun
          obtain ⟨⟨_, hs⟩, _⟩ := hrun
          subst hs
          exact ⟨by omega, hact⟩
        · have hact2 : session.user.isActive = false := Bool.eq_false_iff.mpr hact
          simp [hexp, hact2] at hrun
  · intro s hlk hexp
    constructor
    · rw [hchar, hlk]
      simp [hexp]
    · rw [hchar, hlk]
      simp only [if_pos hexp]
      intro t ht
      have hmem := List.mem_filter.mp ht
      simpa using hmem.2
  · intro s hlk hexp hact
    rw [hchar, hlk]
    simp [hexp, hact]

/-! ## C9: batch-import limits -/

/-- C9: a missing, non-array, empty or over-long `tokens` field makes
`batchImportTokensHandler` answer 400 with the store untouched (limit 100),
and `batchImportFromSessionsHandler` behaves the same for its `sessions`
field (limit 50). -/
theorem c9_batch_limits (u : UserRec) (db : TokenDb) (now : Nat) :
    batchImportTokensHandler (some u) .missing db now = (.err 400, db) ∧
    batchImportTokensHandler (some u) .notArray db now = (.err 400, db) ∧
    (∀ items : List CreateTokenRequest, items = [] ∨ items.length > 100 →
        batchImportTokensHandler (some u) (.arr items) db now = (.err 400, db)) ∧
    batchImportFromSessionsHandler (some u) .missing db now = (.err 400, db) ∧
    batchImportFromSessionsHandler (some u) .notArray db now = (.err 400, db) ∧
    (∀ items : List (SessionImportBody × World), items = [] ∨ items.length > 50 →
        batchImportFromSessionsHandler (some u) (.arr items) db now = (.err 400, db)) := by
  refine ⟨rfl, rfl, ?_, rfl, rfl, ?_⟩
  · intro items hitems
    rcases hitems with rfl | hlen
    · rfl
    · have hne : ¬ items.length = 0 := by omega
      simp [batchImportTokensHandler, hne, hlen]
  · intro items hitems
    rcases hitems with rfl | hlen
    · rfl
    · have hne : ¬ items.length = 0 := by omega
      simp [batchImportFromSessionsHandler, hne, hlen]

/-- Witness for C9: the limit theorem applied to a concrete 101-token
batch. -/
theorem c9_batch_limits_witness :
    (List.replicate 101 (⟨none, "t".toList, none, none, none⟩ : CreateTokenRequest)).length
        > 100 ∧
      batchImportTokensHandler (some ⟨"bob".toList, "user".toList⟩)
          (.arr (List.replicate 101 (⟨none, "t".toList, none, none, none⟩ : CreateTokenRequest)))
          ⟨[]⟩ 0 =
        (.err 400, ⟨[]⟩) :=
  ⟨by decide,
    (c9_batch_limits ⟨"bob".toList, "user".toList⟩ ⟨[]⟩ 0).2.2.1
      (List.replicate 101 ⟨none, "t".toList, none, none, none⟩)
      (Or.inr (by decide))⟩

/-! ## C6: create/get round trip on the relational TokenService -/

theorem le_foldr_max {l : List Nat} {x : Nat} (h : x ∈ l) : x ≤ l.foldr max 0 := by
  induction l with
  | nil => simp at h
  | cons y ys ih =>
    rcases List.mem_cons.mp h with rfl | hm
    · exact Nat.le_max_left _ _
    · exact Nat.le_trans (ih hm) (Nat.le_max_right _ _)

theorem freshTokenId_not_mem (db : TokenDb) : ∀ t ∈ db.tokens, t.id ≠ freshTokenId db := by
  intro t ht heq
  have hle : t.id ≤ (db.tokens.map (fun t => t.id)).foldr max 0 :=
    le_foldr_max (List.mem_map_of_mem _ ht)
  have hf : freshTokenId db = (db.tokens.map (fun t => t.id)).foldr max 0 + 1 := rfl
  omega

/-- C6, counterexample: supplying the empty string as `tenant_url` to
`createToken` yields a stored record whose retrieved `tenant_url` is
`undefined` rather than the supplied empty string, because
`toTokenResponse` maps falsy column values through `x || undefined`. -/
theorem c6_counterexample :
    (ServerTokenService.getTokenById
          (ServerTokenService.createToken ⟨[]⟩ ⟨some [], "tok".toList, none, none, none⟩
              "alice".toList 0).2
          (ServerTokenService.createToken ⟨[]⟩ ⟨some [], "tok".toList, none, none, none⟩
              "alice".toList 0).1.id).map (fun r => r.tenant_url) = some none ∧
      (⟨some [], "tok".toList, none, none, none⟩ : CreateTokenRequest).tenant_url =
        some [] := by
  constructor
  · rfl
  · rfl

/-- C6 (amended): `getTokenById` immediately after `createToken` returns
exactly the record `createToken` returned, whose `access_token` and
`created_by` equal the supplied values; the optional `tenant_url`,
`portal_url` and `email_note` equal the supplied values whenever those are
absent or non-empty (a supplied empty string resurfaces as `undefined`). -/
theorem c6_createToken_roundtrip (db : TokenDb) (req : CreateTokenRequest)
    (cb : JStr) (now : Nat) :
    ServerTokenService.getTokenById (ServerTokenService.createToken db req cb now).2
        (ServerTokenService.createToken db req cb now).1.id =
      some (ServerTokenService.createToken db req cb now).1 ∧
    (ServerTokenService.createToken db req cb now).1.access_token = req.access_token ∧
    (ServerTokenService.createToken db req cb now).1.created_by = cb ∧
    (req.tenant_url = none →
      (ServerTokenService.createToken db req cb now).1.tenant_url = none) ∧
    (∀ s, req.tenant_url = some s → s ≠ [] →
      (ServerTokenService.createToken db req cb now).1.tenant_url = some s) ∧
    (req.portal_url = none →
      (ServerTokenService.createToken db req cb now).1.portal_url = none) ∧
    (∀ s, req.portal_url = some s → s ≠ [] →
      (ServerTokenService.createToken db req cb now).1.portal_url = some s) ∧
    (req.email_note = none →
      (ServerTokenService.createToken db req cb now).1.email_note = none) ∧
    (∀ s, req.email_note = some s → s ≠ [] →
      (ServerTokenService.createToken db req cb now).1.email_note = some s) := by
  have hfresh : ∀ t ∈ db.tokens, (t.id == freshTokenId db) = false := by
    intro t ht
    simpa using freshTokenId_not_mem db t ht
  refine ⟨?_, rfl, rfl, ?_, ?_, ?_, ?_, ?_, ?_⟩
  · simp only [ServerTokenService.createToken, ServerTokenService.getTokenById]
    rw [List.find?_append]
    rw [List.find?_eq_none.mpr ?hnone]
    case hnone =>
      intro x hx
      have h1 := freshTokenId_not_mem db x hx
      simp [toTokenResponse, ServerTokenService.newDbToken, h1]
    simp [toTokenResponse, ServerTokenService.newDbToken]
  · intro h
    simp [ServerTokenService.createToken, toTokenResponse,
      ServerTokenService.newDbToken, jsOrUndef, h]
  · intro s hs hne
    simp [ServerTokenService.createToken, toTokenResponse,
      ServerTokenService.newDbToken, jsOrUndef, hs, hne]
  · intro h
    simp [ServerTokenService.createToken, toTokenResponse,
      ServerTokenService.newDbToken, jsOrUndef, h]
  · intro s hs hne
    simp [ServerTokenService.createToken, toTokenResponse,
      ServerTokenService.newDbToken, jsOrUndef, hs, hne]
  · intro h
    simp [ServerTokenService.createToken, toTokenResponse,
      ServerTokenService.newDbToken, jsOrUndef, h]
  · intro s hs hne
    simp [ServerTokenService.createToken, toTokenResponse,
      ServerTokenService.newDbToken, jsOrUndef, hs, hne]

/-- Witness for C6: the round-trip theorem at a concrete request with
non-empty optional fields. -/
theorem c6_createToken_roundtrip_witness :
    ServerTokenService.getTokenById
        (ServerTokenService.createToken ⟨[]⟩
            ⟨some "u".toList, "tok".toList, some "p".toList, some "e".toList, none⟩
            "alice".toList 5).2
        (ServerTokenService.createToken ⟨[]⟩
            ⟨some "u".toList, "tok".toList, some "p".toList, some "e".toList, none⟩
            "alice".toList 5).1.id =
      some (ServerTokenService.createToken ⟨[]⟩
          ⟨some "u".toList, "tok".toList, some "p".toList, some "e".toList, none⟩
          "alice".toList 5).1 ∧
    (ServerTokenService.createToken ⟨[]⟩
        ⟨some "u".toList, "tok".toList, some "p".toList, some "e".toList, none⟩
        "alice".toList 5).1.tenant_url = some "u".toList :=
  ⟨(c6_createToken_roundtrip ⟨[]⟩
      ⟨some "u".toList, "tok".toList, some "p".toList, some "e".toList, none⟩
      "alice".toList 5).1,
    (c6_createToken_roundtrip ⟨[]⟩
        ⟨some "u".toList, "tok".toList, some "p".toList, some "e".toList, none⟩
        "alice".toList 5).2.2.2.2.1 "u".toList rfl (by decide)⟩

/-! ## C4: permissions on single-token operations -/

/-- C4, counterexample: in the src/unnamed/part_009 implementation a
non-admin whose id differs from the token creator can still read and update
a token created through the public import endpoint, so the 403-for-foreign-
tokens rule does not hold in both implementations. -/
theorem c4_counterexample :
    (ServerTokenService.getTokenById dbPub 1).map (fun t => t.created_by) =
        some publicImportId ∧
      publicImportId ≠ userBob.id ∧
      userBob.role ≠ adminRole ∧
      (WorkerTokensAlt.getTokenByIdHandler (some userBob) (some 1) dbPub).1 ≠
        RouteResult.err 403 ∧
      (WorkerTokensAlt.updateTokenHandler (some userBob) (some 1) updEmail dbPub 9).2 ≠
        dbPub := by decide

/-- C4 (amended): a non-admin operating on an existing token created by a
different user receives 403 with the store unchanged from all of get,
update and delete in the manager-worker implementation; the part_009
implementation guarantees the same only when the creator is additionally
not `public-import`. -/
theorem c4_single_token_permissions (u : UserRec) (tid : Nat) (db : TokenDb)
    (tok : TokenResponse) (body : UpdateTokenRequest) (now : Nat)
    (hrole : u.role ≠ adminRole)
    (hfound : ServerTokenService.getTokenById db tid = some tok)
    (howner : tok.created_by ≠ u.id) :
    (WorkerTokensMain.getTokenByIdHandler (some u) (some tid) db = (.err 403, db) ∧
      WorkerTokensMain.updateTokenHandler (some u) (some tid) body db now =
        (.err 403, db) ∧
      WorkerTokensMain.deleteTokenHandler (some u) (some tid) db = (.err 403, db)) ∧
    (tok.created_by ≠ publicImportId →
      WorkerTokensAlt.getTokenByIdHandler (some u) (some tid) db = (.err 403, db) ∧
      WorkerTokensAlt.updateTokenHandler (some u) (some tid) body db now =
        (.err 403, db) ∧
      WorkerTokensAlt.deleteTokenHandler (some u) (some tid) db = (.err 403, db)) := by
  constructor
  · refine ⟨?_, ?_, ?_⟩
    · simp only [WorkerTokensMain.getTokenByIdHandler, hfound]
      rw [if_pos ⟨hrole, howner⟩]
    · simp only [WorkerTokensMain.updateTokenHandler, hfound]
      rw [if_pos ⟨hrole, howner⟩]
    · simp only [WorkerTokensMain.deleteTokenHandler, hfound]
      rw [if_pos ⟨hrole, howner⟩]
  · intro hpub
    refine ⟨?_, ?_, ?_⟩
    · simp only [WorkerTokensAlt.getTokenByIdHandler, hfound]
      rw [if_pos ⟨hrole, howner, hpub⟩]
    · simp only [WorkerTokensAlt.updateTokenHandler, hfound]
      rw [if_pos ⟨hrole, howner, hpub⟩]
    · simp only [WorkerTokensAlt.deleteTokenHandler, hfound]
      rw [if_pos ⟨hrole, howner, hpub⟩]

/-- Witness for C4: `bob` is denied access to `alice`'s token. -/
theorem c4_single_token_permissions_witness :
    userBob.role ≠ adminRole ∧
      ServerTokenService.getTokenById dbAlice 1 = some (toTokenResponse tokAlice) ∧
      (toTokenResponse tokAlice).created_by ≠ userBob.id ∧
      WorkerTokensMain.getTokenByIdHandler (some userBob) (some 1) dbAlice =
        (.err 403, dbAlice) :=
  ⟨by decide, by decide, by decide,
    ((c4_single_token_permissions userBob 1 dbAlice (toTokenResponse tokAlice) updEmail 9
          (by decide) (by decide) (by decide)).1).1⟩

/-! ## C3: permissions on the listing route -/

theorem mem_insertDesc {x t : DbToken} {l : List DbToken} :
    x ∈ insertDesc t l ↔ x = t ∨ x ∈ l := by
  induction l with
  | nil => simp [insertDesc]
  | cons y ys ih =>
    by_cases hc : t.createdAt ≤ y.createdAt
    · simp only [insertDesc, if_pos hc, List.mem_cons, ih]
      tauto
    · simp only [insertDesc, if_neg hc, List.mem_cons]

theorem mem_sortByCreatedDesc {x : DbToken} {l : List DbToken} :
    x ∈ sortByCreatedDesc l ↔ x ∈ l := by
  induction l with
  | nil => simp [sortByCreatedDesc]
  | cons y ys ih =>
    simp [sortByCreatedDesc, mem_insertDesc, ih]

/-- C3, counterexample: with no search parameter, a non-admin `bob` listing
tokens receives `alice`'s token, because the plain pagination path calls
`listTokens` without a creator filter. -/
theorem c3_counterexample :
    getTokensHandler (some userBob) ⟨1, 10, none, none⟩ dbAlice =
        .page [toTokenResponse tokAlice] 1 10 1 ∧
      (toTokenResponse tokAlice).created_by ≠ userBob.id := by decide

/-- C3 (amended): for a non-admin with a non-empty user id, every token
returned by the search path of `getTokensHandler` was created by the
requester; the plain paginated path, however, applies no creator filter and
pages through the tokens of all users. -/
theorem c3_getTokens (u : UserRec) (q : ListQuery) (db : TokenDb)
    (hrole : u.role ≠ adminRole) (hid : u.id ≠ []) :
    ((jsTruthy q.search || jsTruthy q.category) = true →
      ∀ ts pg lim tot, getTokensHandler (some u) q db = .page ts pg lim tot →
        ∀ t ∈ ts, t.created_by = u.id) ∧
    ((jsTruthy q.search || jsTruthy q.category) = false →
      getTokensHandler (some u) q db =
        .page
          ((((sortByCreatedDesc db.tokens).drop ((q.page - 1) * q.limit)).take q.limit).map
            toTokenResponse)
          q.page q.limit db.tokens.length) := by
  constructor
  · intro hq ts pg lim tot hrun t ht
    simp only [getTokensHandler, hq, if_true, if_neg hrole] at hrun
    have hts : ts =
        ((ServerTokenService.searchTokens db q.search q.category (some u.id)).drop
            ((q.page - 1) * q.limit)).take q.limit := by
      cases hrun
      rfl
    rw [hts] at ht
    have h1 : t ∈ ServerTokenService.searchTokens db q.search q.category (some u.id) :=
      List.drop_subset _ _ (List.take_subset _ _ ht)
    simp only [ServerTokenService.searchTokens] at h1
    obtain ⟨dbt, hmem, rfl⟩ := List.mem_map.mp h1
    have h2 : dbt ∈ db.tokens.filter
        (ServerTokenService.searchMatches q.search (some u.id)) :=
      mem_sortByCreatedDesc.mp hmem
    have h3 := (List.mem_filter.mp h2).2
    simp only [ServerTokenService.searchMatches, Bool.and_eq_true, Bool.or_eq_true] at h3
    have htruthy : jsTruthy (some u.id) = true := by
      simp [jsTruthy, List.isEmpty_iff, hid]
    rcases h3.1 with hfalse | hbeq
    · rw [htruthy] at hfalse
      simp at hfalse
    · have : dbt.createdBy = u.id := by simpa using hbeq
      simpa [toTokenResponse] using this
  · intro hq
    simp only [getTokensHandler, hq, Bool.false_eq_true, if_false]
    have hpred : (fun (t : DbToken) =>
        !jsTruthy none || (t.createdBy == jsOrEmpty none)) = fun _ => true := by
      funext t
      simp [jsTruthy]
    simp only [ServerTokenService.listTokens, hpred, List.filter_true]

/-- Witness for C3: a concrete search by `bob` returns only `bob`'s
token. -/
theorem c3_getTokens_witness :
    userBob.role ≠ adminRole ∧ userBob.id ≠ [] ∧
      (toTokenResponse tokBob).created_by = userBob.id :=
  ⟨by decide, by decide,
    (c3_getTokens userBob ⟨1, 10, some "e@x".toList, none⟩ dbBob (by decide)
        (by decide)).1 (by decide) [toTokenResponse tokBob] 1 10 1 (by decide)
      (toTokenResponse tokBob) (by decide)⟩

/-! ## Structure of the regex extraction -/

theorem matchQuotedAt_ne_nil {label s v : JStr} (h : matchQuotedAt label s = some v) :
    v ≠ [] := by
  unfold matchQuotedAt at h
  cases hp : stripPrefixL label s with
  | none => simp [hp] at h
  | some r =>
    simp only [hp] at h
    cases hd : r.dropWhile Char.isWhitespace with
    | nil => simp [hd] at h
    | cons q r2 =>
      simp only [hd] at h
      by_cases hq : q = '"'
      · rw [if_pos hq] at h
        by_cases hcond : r2.takeWhile (fun c => c ≠ '"') ≠ [] ∧
            r2.dropWhile (fun c => c ≠ '"') ≠ []
        · rw [if_pos hcond] at h
          cases h
          exact hcond.1
        · rw [if_neg hcond] at h; simp at h
      · rw [if_neg hq] at h; simp at h

theorem matchWordAt_ne_nil {label s v : JStr} (h : matchWordAt label s = some v) :
    v ≠ [] := by
  unfold matchWordAt at h
  cases hp : stripPrefixL label s with
  | none => simp [hp] at h
  | some r =>
    simp only [hp] at h
    by_cases hcond : r.takeWhile isSepChar ≠ [] ∧
        (r.dropWhile isSepChar).takeWhile isWordChar ≠ []
    · rw [if_pos hcond] at h
      cases h
      exact hcond.2
    · rw [if_neg hcond] at h; simp at h

theorem matchUrlTail_ne_nil {scheme rest v : JStr} (hs : scheme ≠ [])
    (h : matchUrlTail scheme rest = some v) : v ≠ [] := by
  unfold matchUrlTail at h
  cases hp : stripPrefixL [':', '/', '/'] rest with
  | none =>
    simp only [hp] at h
    exact absurd h (by simp)
  | some r5 =>
    simp only [hp] at h
    by_cases hcond : r5.takeWhile isUrlChar ≠ []
    · rw [if_pos hcond] at h
      cases h
      simp [hs]
    · rw [if_neg hcond] at h; simp at h

theorem matchUrlAt_ne_nil {label s v : JStr} (h : matchUrlAt label s = some v) :
    v ≠ [] := by
  unfold matchUrlAt at h
  cases hp : stripPrefixL label s with
  | none => simp [hp] at h
  | some r =>
    simp only [hp] at h
    by_cases hsep : r.takeWhile isSepChar = []
    · rw [if_pos hsep] at h; simp at h
    · rw [if_neg hsep] at h
      cases hh : stripPrefixL ['h', 't', 't', 'p'] (r.dropWhile isSepChar) with
      | none =>
        simp only [hh] at h
        simp at h
      | some r3 =>
        simp only [hh] at h
        cases r3 with
        | nil =>
          have h2 : matchUrlTail "http".toList [] = some v := h
          exact matchUrlTail_ne_nil (by decide) h2
        | cons c r4 =>
          have h2 : (if c = 's' then matchUrlTail "https".toList r4
              else matchUrlTail "http".toList (c :: r4)) = some v := h
          by_cases hc : c = 's'
          · rw [if_pos hc] at h2
            exact matchUrlTail_ne_nil (by decide) h2
          · rw [if_neg hc] at h2
            exact matchUrlTail_ne_nil (by decide) h2

theorem scanFor_some {m : JStr → Option JStr} {l v : JStr}
    (h : scanFor m l = some v) : ∃ s, m s = some v := by
  induction l with
  | nil => exact ⟨[], h⟩
  | cons x rest ih =>
    unfold scanFor at h
    cases hm : m (x :: rest) with
    | some w => simp only [hm] at h; cases h; exact ⟨x :: rest, hm⟩
    | none =>
      simp only [hm] at h
      exact ih h

/-- Every capture produced by `extractParams` is non-empty; in particular
the extracted tenant url and code survive the truthiness checks of the
session handlers. -/
theorem extractParams_ne_nil {html c st t : JStr}
    (h : extractParams html = some (c, st, t)) : c ≠ [] ∧ st ≠ [] ∧ t ≠ [] := by
  unfold extractParams at h
  have hcap : ∀ (lq lw : JStr) (v : JStr),
      (match scanFor (matchQuotedAt lq) html with
        | some w => some w
        | none => scanFor (matchWordAt lw) html) = some v → v ≠ [] := by
    intro lq lw v hv
    cases hq : scanFor (matchQuotedAt lq) html with
    | some w =>
      simp only [hq] at hv
      cases hv
      obtain ⟨s, hs⟩ := scanFor_some hq
      exact matchQuotedAt_ne_nil hs
    | none =>
      simp only [hq] at hv
      obtain ⟨s, hs⟩ := scanFor_some hv
      exact matchWordAt_ne_nil hs
  have hurl : ∀ (v : JStr),
      (match scanFor (matchQuotedAt ['t', 'e', 'n', 'a', 'n', 't', '_', 'u', 'r', 'l', ':'])
          html with
        | some w => some w
        | none =>
          scanFor (matchUrlAt ['t', 'e', 'n', 'a', 'n', 't', '_', 'u', 'r', 'l']) html) =
        some v → v ≠ [] := by
    intro v hv
    cases hq : scanFor (matchQuotedAt ['t', 'e', 'n', 'a', 'n', 't', '_', 'u', 'r', 'l', ':'])
        html with
    | some w =>
      simp only [hq] at hv
      cases hv
      obtain ⟨s, hs⟩ := scanFor_some hq
      exact matchQuotedAt_ne_nil hs
    | none =>
      simp only [hq] at hv
      obtain ⟨s, hs⟩ := scanFor_some hv
      exact matchUrlAt_ne_nil hs
  cases hc : (match scanFor (matchQuotedAt ['c', 'o', 'd', 'e', ':']) html with
    | some w => some w
    | none => scanFor (matchWordAt ['c', 'o', 'd', 'e']) html) with
  | none => simp [hc] at h
  | some cv =>
    cases hst : (match scanFor (matchQuotedAt ['s', 't', 'a', 't', 'e', ':']) html with
      | some w => some w
      | none => scanFor (matchWordAt ['s', 't', 'a', 't', 'e']) html) with
    | none => simp [hc, hst] at h
    | some sv =>
      cases ht : (match scanFor
          (matchQuotedAt ['t', 'e', 'n', 'a', 'n', 't', '_', 'u', 'r', 'l', ':']) html with
        | some w => some w
        | none =>
          scanFor (matchUrlAt ['t', 'e', 'n', 'a', 'n', 't', '_', 'u', 'r', 'l']) html) with
      | none => simp [hc, hst, ht] at h
      | some tv =>
        simp only [hc, hst, ht, Option.some.injEq, Prod.mk.injEq] at h
        obtain ⟨h1, h2, h3⟩ := h
        subst h1; subst h2; subst h3
        exact ⟨hcap _ _ _ hc, hcap _ _ _ hst, hurl _ ht⟩

/-! ## Characterization of extractTokenFromSession -/

/-- When every metadata strategy fails, step 4 yields neither an email nor
a portal url. -/
theorem fetchMeta_fail (w : World)
    (hu : (authLoop w.userAuth).1 = none) (hsub : (authLoop w.subAuth).1 = none)
    (hm : w.appSession = none ∨ (apiField w.userApp = none ∧ apiField w.subApp = none)) :
    (fetchMeta w).1 = none ∧ (fetchMeta w).2.1 = none := by
  rcases h1 : authLoop w.userAuth with ⟨e1, t1⟩
  rcases h2 : authLoop w.subAuth with ⟨p1, t2⟩
  have he : e1 = none := by rw [h1] at hu; exact hu
  have hpp : p1 = none := by rw [h2] at hsub; exact hsub
  subst he; subst hpp
  rcases hm with hm | ⟨hma, hmb⟩
  · simp [fetchMeta, h1, h2, hm]
  · cases hs : w.appSession with
    | none => simp [fetchMeta, h1, h2, hs]
    | some s => simp [fetchMeta, h1, h2, hs, hma, hmb]

/-- The metadata step never issues the terms or exchange request again. -/
theorem fetchMeta_trace_core (w : World) :
    Req.terms ∉ (fetchMeta w).2.2 ∧ Req.exchange ∉ (fetchMeta w).2.2 := by
  rcases h1 : authLoop w.userAuth with ⟨e1, t1⟩
  rcases h2 : authLoop w.subAuth with ⟨p1, t2⟩
  by_cases hc : e1.isSome ∧ p1.isSome
  · simp [fetchMeta, h1, h2, hc]
  · cases hs : w.appSession with
    | none => simp [fetchMeta, h1, h2, hc, hs]
    | some s => simp [fetchMeta, h1, h2, hc, hs]

/-- The extraction result is non-null exactly when the flow succeeds. -/
theorem extract_isSome_iff (w : World) :
    (extractTokenFromSession w).1.isSome ↔ flowOk w := by
  cases hterm : w.terms with
  | exn => simp [extractTokenFromSession, flowOk, hterm]
  | resp ok b =>
    cases ok with
    | false => simp [extractTokenFromSession, flowOk, hterm]
    | true =>
      cases hpar : extractParams b with
      | none => simp [extractTokenFromSession, flowOk, hterm, hpar]
      | some trip =>
        obtain ⟨c, st, t⟩ := trip
        cases hex : w.exchange with
        | exn => simp [extractTokenFromSession, flowOk, hterm, hpar, hex]
        | resp ok2 tok =>
          cases ok2 with
          | false => simp [extractTokenFromSession, flowOk, hterm, hpar, hex]
          | true =>
            cases tok with
            | none => simp [extractTokenFromSession, flowOk, hterm, hpar, hex]
            | some a =>
              by_cases ha : a = []
              · simp [extractTokenFromSession, flowOk, hterm, hpar, hex, ha]
              · rcases hmeta : fetchMeta w with ⟨em, pu, mt⟩
                simp [extractTokenFromSession, flowOk, hterm, hpar, hex, ha, hmeta]

/-- A non-null extraction result takes its `access_token` from the exchange
response and its `tenant_url` from the HTML extraction. -/
theorem extract_some_fields (w : World) (info : TokenInfo)
    (h : (extractTokenFromSession w).1 = some info) :
    (∃ a, w.exchange = .resp true (some a) ∧ a ≠ [] ∧ info.access_token = a) ∧
    (∃ b c st t, w.terms = .resp true b ∧ extractParams b = some (c, st, t) ∧
      info.tenant_url = t) := by
  cases hterm : w.terms with
  | exn => simp [extractTokenFromSession, hterm] at h
  | resp ok b =>
    cases ok with
    | false => simp [extractTokenFromSession, hterm] at h
    | true =>
      cases hpar : extractParams b with
      | none => simp [extractTokenFromSession, hterm, hpar] at h
      | some trip =>
        obtain ⟨c, st, t⟩ := trip
        cases hex : w.exchange with
        | exn => simp [extractTokenFromSession, hterm, hpar, hex] at h
        | resp ok2 tok =>
          cases ok2 with
          | false => simp [extractTokenFromSession, hterm, hpar, hex] at h
          | true =>
            cases tok with
            | none => simp [extractTokenFromSession, hterm, hpar, hex] at h
            | some a =>
              by_cases ha : a = []
              · simp [extractTokenFromSession, hterm, hpar, hex, ha] at h
              · rcases hmeta : fetchMeta w with ⟨em, pu, mt⟩
                simp only [extractTokenFromSession, hterm, hpar, hex, ha, hmeta,
                  if_true, if_neg, Option.some.injEq] at h
                rw [if_pos (by exact ha)] at h
                simp only [Option.some.injEq] at h
                subst h
                exact ⟨⟨a, rfl, ha, rfl⟩, ⟨b, c, st, t, rfl, hpar, rfl⟩⟩

/-- C1: `extractTokenFromSession` resolves non-null exactly when the terms
fetch succeeds, all three OAuth parameters are extracted from the HTML, and
the code exchange succeeds with a truthy `access_token`; the record then
carries the exchanged access token and the extracted tenant url.  When it
resolves null, `importTokenFromSessionHandler` answers 400 and the token
store is unchanged. -/
theorem c1_session_import (w : World) (u : UserRec) (body : SessionImportBody)
    (db : TokenDb) (now : Nat) (hses : jsTruthy body.session_token = true) :
    ((extractTokenFromSession w).1.isSome ↔ flowOk w) ∧
    (∀ info, (extractTokenFromSession w).1 = some info →
      (∃ a, w.exchange = .resp true (some a) ∧ a ≠ [] ∧ info.access_token = a) ∧
      (∃ b c st t, w.terms = .resp true b ∧ extractParams b = some (c, st, t) ∧
        info.tenant_url = t)) ∧
    ((extractTokenFromSession w).1 = none →
      importTokenFromSessionHandler (some u) body w db now = (.err 400, db)) := by
  refine ⟨extract_isSome_iff w, fun info h => extract_some_fields w info h, fun hnone => ?_⟩
  simp [importTokenFromSessionHandler, hses, hnone]

/-- Witness for C1: a non-OK terms response makes extraction resolve null
and the import handler answer 400 without touching the store. -/
theorem c1_session_import_witness :
    jsTruthy (some "s".toList) = true ∧
      importTokenFromSessionHandler (some userBob) ⟨some "s".toList, none⟩ wTermsFail
          ⟨[]⟩ 0 =
        (.err 400, ⟨[]⟩) :=
  ⟨by decide,
    (c1_session_import wTermsFail userBob ⟨some "s".toList, none⟩ ⟨[]⟩ 0 (by decide)).2.2
      (by decide)⟩

/-- C2: when the terms fetch, extraction and code exchange succeed but
every metadata strategy fails, extraction still resolves a record with the
access token and tenant url and with no portal url or email, and the import
handler creates the token record and answers 201. -/
theorem c2_metadata_best_effort (w : World) (u : UserRec) (body : SessionImportBody)
    (db : TokenDb) (now : Nat) (b c st t a : JStr)
    (hterm : w.terms = .resp true b)
    (hpar : extractParams b = some (c, st, t))
    (hex : w.exchange = .resp true (some a)) (ha : a ≠ [])
    (hu : (authLoop w.userAuth).1 = none)
    (hsub : (authLoop w.subAuth).1 = none)
    (hm : w.appSession = none ∨ (apiField w.userApp = none ∧ apiField w.subApp = none))
    (hses : jsTruthy body.session_token = true) :
    (extractTokenFromSession w).1 = some ⟨a, t, none, none⟩ ∧
    importTokenFromSessionHandler (some u) body w db now =
      (.ok 201 (some (ServerTokenService.createToken db
          (sessionCreateRequest body ⟨a, t, none, none⟩) u.id now).1),
        (ServerTokenService.createToken db
          (sessionCreateRequest body ⟨a, t, none, none⟩) u.id now).2) := by
  have hmeta := fetchMeta_fail w hu hsub hm
  have hext : (extractTokenFromSession w).1 = some ⟨a, t, none, none⟩ := by
    rcases hfm : fetchMeta w with ⟨em, pu, mt⟩
    rw [hfm] at hmeta
    obtain ⟨he, hpu⟩ := hmeta
    simp only at he hpu
    subst he; subst hpu
    simp [extractTokenFromSession, hterm, hpar, hex, ha, hfm]
  refine ⟨hext, ?_⟩
  have ht : t ≠ [] := (extractParams_ne_nil hpar).2.2
  have hportal : (ServerTokenService.createToken db
      (sessionCreateRequest body ⟨a, t, none, none⟩) u.id now).1.portal_url = none := by
    simp [ServerTokenService.createToken, toTokenResponse, ServerTokenService.newDbToken,
      sessionCreateRequest, jsOrEmpty, jsOrUndef]
  have hjt : jsTruthy (none : Option JStr) = false := rfl
  simp [importTokenFromSessionHandler, hses, hext, ha, ht, hportal, hjt]

/-- Witness for C2: the best-effort theorem at the concrete world whose
metadata calls all answer non-OK. -/
theorem c2_metadata_best_effort_witness :
    wGood.terms = .resp true htmlGood ∧
      (extractTokenFromSession wGood).1 =
        some ⟨"tok".toList, "https://t.example/".toList, none, none⟩ :=
  ⟨rfl,
    (c2_metadata_best_effort wGood userBob ⟨some "s".toList, none⟩ ⟨[]⟩ 0 htmlGood
        "abc".toList "st1".toList "https://t.example/".toList "tok".toList rfl
        (by decide) rfl (by decide) (by decide) (by decide) (Or.inl rfl) (by decide)).1⟩

/-- C7: each execution issues the terms request and the exchange request at
most once; a non-OK terms response ends the flow with null after the single
terms request, and a non-OK exchange response ends the flow with null after
the single terms and single exchange request. -/
theorem c7_no_retry (w : World) :
    ((extractTokenFromSession w).2.count .terms ≤ 1 ∧
      (extractTokenFromSession w).2.count .exchange ≤ 1) ∧
    (∀ b, w.terms = .resp false b →
      (extractTokenFromSession w).1 = none ∧
        (extractTokenFromSession w).2 = [.terms]) ∧
    (∀ tok, w.exchange = .resp false tok →
      Req.exchange ∈ (extractTokenFromSession w).2 →
      (extractTokenFromSession w).1 = none ∧
        (extractTokenFromSession w).2 = [.terms, .exchange]) := by
  have hcore := fetchMeta_trace_core w
  refine ⟨?_, ?_, ?_⟩
  · cases hterm : w.terms with
    | exn => simp [extractTokenFromSession, hterm]
    | resp ok b =>
      cases ok with
      | false => simp [extractTokenFromSession, hterm]
      | true =>
        cases hpar : extractParams b with
        | none => simp [extractTokenFromSession, hterm, hpar]
        | some trip =>
          obtain ⟨c, st, t⟩ := trip
          cases hex : w.exchange with
          | exn => simp [extractTokenFromSession, hterm, hpar, hex, List.count_cons]
          | resp ok2 tok =>
            cases ok2 with
            | false => simp [extractTokenFromSession, hterm, hpar, hex, List.count_cons]
            | true =>
              cases tok with
              | none => simp [extractTokenFromSession, hterm, hpar, hex, List.count_cons]
              | some a =>
                by_cases ha : a = []
                · simp [extractTokenFromSession, hterm, hpar, hex, ha, List.count_cons]
                · rcases hmeta : fetchMeta w with ⟨em, pu, mt⟩
                  rw [hmeta] at hcore
                  have hc1 : mt.count Req.terms = 0 := List.count_eq_zero.mpr hcore.1
                  have hc2 : mt.count Req.exchange = 0 := List.count_eq_zero.mpr hcore.2
                  simp [extractTokenFromSession, hterm, hpar, hex, ha, hmeta,
                    List.count_cons, hc1, hc2]
  · intro b hb
    simp [extractTokenFromSession, hb]
  · intro tok hex hmem
    cases hterm : w.terms with
    | exn => simp [extractTokenFromSession, hterm] at hmem
    | resp ok b =>
      cases ok with
      | false => simp [extractTokenFromSession, hterm] at hmem
      | true =>
        cases hpar : extractParams b with
        | none => simp [extractTokenFromSession, hterm, hpar] at hmem
        | some trip =>
          obtain ⟨c, st, t⟩ := trip
          simp [extractTokenFromSession, hterm, hpar, hex]

/-- Witness for C7: a concrete non-OK terms response yields null with the
single terms request in the trace. -/
theorem c7_no_retry_witness :
    wTermsFail.terms = .resp false [] ∧
      (extractTokenFromSession wTermsFail).1 = none ∧
        (extractTokenFromSession wTermsFail).2 = [.terms] :=
  ⟨rfl, (c7_no_retry wTermsFail).2.1 [] rfl⟩

/-! ## C5: partial-failure reporting of the batch endpoints -/

/-- The loop of the session batch import counts one success or one failure
per session. -/
theorem runSessionBatch_counts (u : UserRec) (now : Nat)
    (items : List (SessionImportBody × World)) (db : TokenDb) :
    (runSessionBatch u now items db).1 =
        items.countP (fun p => sessionItemOk p.1 p.2) ∧
      (runSessionBatch u now items db).2.1 =
        items.countP (fun p => !(sessionItemOk p.1 p.2)) := by
  induction items generalizing db with
  | nil => simp [runSessionBatch]
  | cons item rest ih =>
    obtain ⟨body, w⟩ := item
    by_cases hses : jsTruthy body.session_token = true
    · cases hext : (extractTokenFromSession w).1 with
      | none =>
        have hok : sessionItemOk body w = false := by
          simp [sessionItemOk, hext]
        rcases hr : runSessionBatch u now rest db with ⟨i, f, db3⟩
        have h1 := (ih db).1
        have h2 := (ih db).2
        rw [hr] at h1 h2
        simp at h1 h2
        simp [runSessionBatch, hses, hext, hr, List.countP_cons, hok, h1, h2]
      | some info =>
        by_cases hcond : info.access_token ≠ [] ∧ info.tenant_url ≠ []
        · have hok : sessionItemOk body w = true := by
            simp [sessionItemOk, hses, hext, List.isEmpty_iff, hcond.1, hcond.2]
          rcases hct : ServerTokenService.createToken db
              (sessionCreateRequest body info) u.id now with ⟨tokResp, db2⟩
          rcases hr : runSessionBatch u now rest db2 with ⟨i, f, db3⟩
          have h1 := (ih db2).1
          have h2 := (ih db2).2
          rw [hr] at h1 h2
          simp at h1 h2
          simp [runSessionBatch, hses, hext, hcond, hct, hr, List.countP_cons, hok, h1, h2]
        · have hok : sessionItemOk body w = false := by
            rcases not_and_or.mp hcond with hl | hr2
            · have : info.access_token = [] := not_not.mp hl
              simp [sessionItemOk, hext, List.isEmpty_iff, this]
            · have : info.tenant_url = [] := not_not.mp hr2
              simp [sessionItemOk, hext, List.isEmpty_iff, this]
          rcases hr : runSessionBatch u now rest db with ⟨i, f, db3⟩
          have h1 := (ih db).1
          have h2 := (ih db).2
          rw [hr] at h1 h2
          simp at h1 h2
          simp [runSessionBatch, hses, hext, hcond, hr, List.countP_cons, hok, h1, h2]
    · have hsesf : jsTruthy body.session_token = false := by
        simpa using hses
      have hok : sessionItemOk body w = false := by
        simp [sessionItemOk, hsesf]
      rcases hr : runSessionBatch u now rest db with ⟨i, f, db3⟩
      have h1 := (ih db).1
      have h2 := (ih db).2
      rw [hr] at h1 h2
      simp at h1 h2
      simp [runSessionBatch, hsesf, hr, List.countP_cons, hok, h1, h2]

/-- C5, counterexample: a two-session batch whose first session imports and
whose second fails is answered with a 200 success envelope reporting
`imported = 1` and `failed = 1` — the endpoint does report an operation as
simultaneously partly succeeded and partly failed. -/
theorem c5_counterexample :
    (batchImportFromSessionsHandler (some userBob)
        (.arr [(⟨some "s1".toList, none⟩, wGood), (⟨some "s2".toList, none⟩, wTermsFail)])
        ⟨[]⟩ 0).1 = .ok 200 1 1 := by decide

/-- C5 (amended): whole-request failures of the batch session import are a
single error envelope (see the 400 rejections), but a well-formed batch is
answered with one 200 success envelope that reports the number of imported
and the number of failed sessions — partial failure is reported, not
collapsed into log-and-500. -/
theorem c5_batch_reports_partial (u : UserRec)
    (items : List (SessionImportBody × World)) (db : TokenDb) (now : Nat)
    (h0 : items ≠ []) (h50 : items.length ≤ 50) :
    (batchImportFromSessionsHandler (some u) (.arr items) db now).1 =
      .ok 200 (items.countP (fun p => sessionItemOk p.1 p.2))
        (items.countP (fun p => !(sessionItemOk p.1 p.2))) := by
  have hl0 : ¬ items.length = 0 := by
    simpa [List.length_eq_zero] using h0
  have hl50 : ¬ items.length > 50 := by omega
  rcases hr : runSessionBatch u now items db with ⟨i, f, db2⟩
  have hc := runSessionBatch_counts u now items db
  rw [hr] at hc
  obtain ⟨h1, h2⟩ := hc
  simp at h1 h2
  simp [batchImportFromSessionsHandler, hl0, hl50, hr, h1, h2]

/-- Witness for C5: the partial-report theorem at the concrete mixed
batch. -/
theorem c5_batch_reports_partial_witness :
    ([(⟨some "s1".toList, none⟩, wGood), (⟨some "s2".toList, none⟩, wTermsFail)] :
        List (SessionImportBody × World)) ≠ [] ∧
      (batchImportFromSessionsHandler (some userBob)
          (.arr [(⟨some "s1".toList, none⟩, wGood),
            (⟨some "s2".toList, none⟩, wTermsFail)]) ⟨[]⟩ 0).1 =
        .ok 200
          (([(⟨some "s1".toList, none⟩, wGood),
            (⟨some "s2".toList, none⟩, wTermsFail)] :
              List (SessionImportBody × World)).countP
            (fun p => sessionItemOk p.1 p.2))
          (([(⟨some "s1".toList, none⟩, wGood),
            (⟨some "s2".toList, none⟩, wTermsFail)] :
              List (SessionImportBody × World)).countP
            (fun p => !(sessionItemOk p.1 p.2))) :=
  ⟨by simp,
    c5_batch_reports_partial userBob
      [(⟨some "s1".toList, none⟩, wGood), (⟨some "s2".toList, none⟩, wTermsFail)]
      ⟨[]⟩ 0 (by simp) (by simp)⟩

/-- Witness for C10: a concrete expired session is rejected with 401 and
deleted, exercising the middleware theorem at explicit inputs. -/
theorem c10_authMiddleware_invariant_witness :
    sessionLookup (some "Bearer sid".toList) [⟨1, "sid".toList, 50, ⟨7, false⟩⟩] =
        some ⟨1, "sid".toList, 50, ⟨7, false⟩⟩ ∧
      (50 : Int) < 100 ∧
      authMiddleware (some "Bearer sid".toList) 100 [⟨1, "sid".toList, 50, ⟨7, false⟩⟩] =
        (.err 401,
          List.filter (fun t => !(t.id == (1 : Nat))) [⟨1, "sid".toList, 50, ⟨7, false⟩⟩]) :=
  ⟨by decide, by decide,
    ((c10_authMiddleware_invariant (some "Bearer sid".toList) 100
          [⟨1, "sid".toList, 50, ⟨7, false⟩⟩]).2.1
        ⟨1, "sid".toList, 50, ⟨7, false⟩⟩ (by decide) (by decide)).1⟩

end TokenManager
